import Mathlib

/-!
Verification of the meal-plan and recommendation core of the smartmealsplanning
repository (src/utils/data_processing.py and src/utils/recommendations.py),
shallowly embedded in Lean 4.  Python floats are modelled as rationals, the
pandas DataFrames as lists of structures, and the unbounded while-loop of the
meal-plan assembler as a fuel-indexed recursion returning Option.
-/

/-- Banker rounding of a rational to the nearest integer, as the Python
builtin round does: the exact half goes to the even neighbour. -/
def pyRound (q : ℚ) : ℤ :=
  let f := ⌊q⌋
  let r := q - (f : ℚ)
  if r < 1/2 then f
  else if 1/2 < r then f + 1
  else if f % 2 = 0 then f else f + 1

/-- Python round with one decimal digit, round(x, 1). -/
def pyRound1 (q : ℚ) : ℚ := (pyRound (10 * q) : ℚ) / 10

/-- Contiguous-sublist test on character lists. -/
def infixOfB (n : List Char) : List Char → Bool
  | [] => n.isEmpty
  | c :: t => n.isPrefixOf (c :: t) || infixOfB n t

/-- Free substring test, modelling the Python operator a in b on strings
(callers lowercase the operands where the source does). -/
def substrB (needle hay : String) : Bool :=
  infixOfB needle.toList hay.toList

/-- Python str.lower, mapping every character to lower case. -/
def lowerS (s : String) : String := ⟨s.data.map Char.toLower⟩

/-- Python str.strip with no argument: remove leading and trailing
whitespace. -/
def trimS (s : String) : String :=
  ⟨(((s.data.dropWhile Char.isWhitespace).reverse).dropWhile Char.isWhitespace).reverse⟩

/-- Accumulating splitter over characters for splitWords. -/
def splitWordsGo : List Char → List Char → List String
  | acc, [] => if acc = [] then [] else [String.mk acc.reverse]
  | acc, c :: t =>
    if c.isWhitespace then
      (if acc = [] then splitWordsGo [] t
       else String.mk acc.reverse :: splitWordsGo [] t)
    else splitWordsGo (c :: acc) t

/-- Python str.split() with no argument: split on whitespace runs, dropping
empty pieces. -/
def splitWords (s : String) : List String := splitWordsGo [] s.data

/-- Minimum of a list of rationals, np.min over a nonempty column
(0 for the empty list, which the code never reaches). -/
def listMinQ : List ℚ → ℚ
  | [] => 0
  | x :: xs => xs.foldl min x

/-- Maximum of a list of rationals, np.max over a nonempty column. -/
def listMaxQ : List ℚ → ℚ
  | [] => 0
  | x :: xs => xs.foldl max x

/-- Insert an element into a list so that elements accepted by the relation
stay in front: the inner step of a comparison sort. -/
def insertR {α : Type} (r : α → α → Bool) (x : α) : List α → List α
  | [] => [x]
  | y :: ys => if r x y then x :: y :: ys else y :: insertR r x ys

/-- Comparison sort by the Boolean relation r, where r a b means a may be
placed before b.  Models the sort_values calls of pandas (the claims proved
below do not depend on the tie-breaking order). -/
def sortR {α : Type} (r : α → α → Bool) : List α → List α
  | [] => []
  | x :: xs => insertR r x (sortR r xs)

/-- Activity multipliers of calculate_calorie_needs, a dict lookup defaulting
to the moderately active multiplier. -/
def activityMultiplier (s : String) : ℚ :=
  if s = "sedentary" then 1.2
  else if s = "lightly_active" then 1.375
  else if s = "moderately_active" then 1.55
  else if s = "very_active" then 1.725
  else if s = "extra_active" then 1.9
  else 1.55

/-- Goal-based additive calorie adjustment: the source walks the
goal_adjustments dict in insertion order and takes the first key that is a
substring of the cleaned goal, defaulting to 0. -/
def goalAdjustment (g : String) : ℚ :=
  if substrB "weight loss" g then -500
  else if substrB "weight gain" g then 500
  else if substrB "maintain weight" g then 0
  else if substrB "muscle gain" g then 300
  else if substrB "not specified" g then 0
  else 0

/-- calculate_calorie_needs: Mifflin St Jeor BMR, an activity multiplier, a
goal adjustment, and rounding to the nearest 50 calories. -/
def calculate_calorie_needs (weight height age : ℚ)
    (gender activity_level goal : String) : ℤ :=
  let bmr : ℚ :=
    if lowerS gender = "male" then 10 * weight + 6.25 * height - 5 * age + 5
    else 10 * weight + 6.25 * height - 5 * age - 161
  let tdee := bmr * activityMultiplier (lowerS activity_level)
  let daily := tdee + goalAdjustment (trimS (lowerS goal))
  pyRound (daily / 50) * 50

/-- Macro targets in grams, the return dict of calculate_macros. -/
structure MacroTargets where
  protein : ℤ
  carbs : ℤ
  fat : ℤ
deriving DecidableEq, Repr

/-- calculate_macros: goal-dependent fixed percentage split of calories,
converted to grams at 4 kcal per gram of protein and carbs and 9 kcal per
gram of fat, each rounded to the nearest gram. -/
def calculate_macros (calories : ℤ) (goal : String) : MacroTargets :=
  let g := lowerS goal
  let p :=
    if substrB "muscle gain" g then ((0.30 : ℚ), (0.25 : ℚ), (0.45 : ℚ))
    else if substrB "weight loss" g then (0.35, 0.30, 0.35)
    else if substrB "weight gain" g then (0.20, 0.30, 0.50)
    else (0.25, 0.30, 0.45)
  { protein := pyRound (((calories : ℚ) * p.1) / 4)
    carbs := pyRound (((calories : ℚ) * p.2.2) / 4)
    fat := pyRound (((calories : ℚ) * p.2.1) / 9) }

/-- A row of the optimized recipes catalog used for meal planning. -/
structure Recipe where
  name : String
  ingredients : List String
  tags : List String
  meal_type : String
  calories : ℚ
  protein : ℚ
  carbs : ℚ
  fat : ℚ
deriving DecidableEq, Repr

/-- One allergy term hits a recipe when it occurs as a substring of some
lowercased ingredient, or equals some word of the lowercased name. -/
def allergyHit (normAllergies : List String) (r : Recipe) : Bool :=
  r.ingredients.any (fun ing => normAllergies.any (fun al => substrB al (lowerS ing))) ||
  (splitWords (lowerS r.name)).any (fun w => normAllergies.any (fun al => al = w))

/-- A recipe passes the cuisine filter when some preferred cuisine occurs as
a substring of some lowercased tag. -/
def cuisineHit (cuisines : List String) (r : Recipe) : Bool :=
  r.tags.any (fun t => cuisines.any (fun cu => substrB (lowerS cu) (lowerS t)))

/-- filter_recipes_by_allergies_and_cuisines: drop recipes hit by an allergy
term, then, when cuisines are given and recipes remain, keep only recipes
with a matching cuisine tag. -/
def filter_recipes_by_allergies_and_cuisines
    (recipes : List Recipe) (allergies cuisines : List String) : List Recipe :=
  if recipes = [] then recipes
  else
    let na := (allergies.map (fun a => lowerS (trimS a))).map lowerS
    let d1 := if allergies ≠ [] then recipes.filter (fun r => !(allergyHit na r))
              else recipes
    if cuisines ≠ [] then
      if d1 ≠ [] then d1.filter (fun r => cuisineHit cuisines r) else d1
    else d1

/-- The fixed feature vector [calories, fat, carbs, protein] used by the
similarity step, in the order of the features list of the source. -/
structure Vec4 where
  cal : ℚ
  fat : ℚ
  carbs : ℚ
  protein : ℚ
deriving DecidableEq, Repr

/-- Dot product of two feature vectors. -/
def dotV (u v : Vec4) : ℚ :=
  u.cal * v.cal + u.fat * v.fat + u.carbs * v.carbs + u.protein * v.protein

/-- Squared euclidean norm of a feature vector. -/
def normSqV (v : Vec4) : ℚ := dotV v v

/-- Cosine similarity as sklearn computes it: rows are l2-normalized (a zero
row stays zero) and multiplied; with the division-by-zero convention of Lean
real division this is exactly the plain quotient. -/
noncomputable def realSim (u v : Vec4) : ℝ :=
  ((dotV u v : ℚ) : ℝ) / (Real.sqrt ((normSqV u : ℚ) : ℝ) * Real.sqrt ((normSqV v : ℚ) : ℝ))

/-- Decidable comparison of two cosine similarities against a common left
vector, avoiding square roots: with a = dot u v, p = normSq v, b = dot u w,
q = normSq w, it decides realSim u v ≤ realSim u w. -/
def simLE (a p b q : ℚ) : Bool :=
  if 0 ≤ a then
    if 0 ≤ b then decide (a ^ 2 / p ≤ b ^ 2 / q) else false
  else
    if 0 ≤ b then true else decide (b ^ 2 / q ≤ a ^ 2 / p)

/-- Boolean comparator placing v before w when the cosine similarity of v to
u is at least that of w to u. -/
def simGEb (u v w : Vec4) : Bool :=
  simLE (dotV u w) (normSqV w) (dotV u v) (normSqV v)

/-- MinMax scaling of one coordinate: (x - lo) / (hi - lo), with the sklearn
convention that a zero range is replaced by a unit scale. -/
def scaleVal (lo hi x : ℚ) : ℚ :=
  if hi - lo = 0 then x - lo else (x - lo) / (hi - lo)

/-- Coordinatewise MinMax scaling of a feature vector. -/
def scaleVec (lo hi v : Vec4) : Vec4 :=
  ⟨scaleVal lo.cal hi.cal v.cal, scaleVal lo.fat hi.fat v.fat,
   scaleVal lo.carbs hi.carbs v.carbs, scaleVal lo.protein hi.protein v.protein⟩

/-- Feature vector of a recipe row, in the source order of the features
list: calories, fat, carbs, protein. -/
def recipeVec (r : Recipe) : Vec4 := ⟨r.calories, r.fat, r.carbs, r.protein⟩

/-- Columnwise minima of a slot pool, the data_min of the fitted scaler. -/
def poolLo (pool : List Recipe) : Vec4 :=
  ⟨listMinQ (pool.map (fun r => r.calories)), listMinQ (pool.map (fun r => r.fat)),
   listMinQ (pool.map (fun r => r.carbs)), listMinQ (pool.map (fun r => r.protein))⟩

/-- Columnwise maxima of a slot pool, the data_max of the fitted scaler. -/
def poolHi (pool : List Recipe) : Vec4 :=
  ⟨listMaxQ (pool.map (fun r => r.calories)), listMaxQ (pool.map (fun r => r.fat)),
   listMaxQ (pool.map (fun r => r.carbs)), listMaxQ (pool.map (fun r => r.protein))⟩

/-- Scaled feature vector of a recipe under the scaler fitted on its slot
pool. -/
def slotScaled (pool : List Recipe) (r : Recipe) : Vec4 :=
  scaleVec (poolLo pool) (poolHi pool) (recipeVec r)

/-- The per-slot ranking: scale the pool and the user target with the slot
scaler, sort by descending cosine similarity to the scaled target, and keep
the first top_k rows (head(days) in the source). -/
def rankSlot (goalVec : Vec4) (pool : List Recipe) (top_k : ℕ) : List Recipe :=
  let u := scaleVec (poolLo pool) (poolHi pool) goalVec
  (sortR (fun x y => simGEb u (slotScaled pool x) (slotScaled pool y)) pool).take top_k

/-- The cosine-similarity key a ranked recipe is ordered by. -/
noncomputable def slotKey (goalVec : Vec4) (pool : List Recipe) (r : Recipe) : ℝ :=
  realSim (scaleVec (poolLo pool) (poolHi pool) goalVec) (slotScaled pool r)

/-- A food entry of a meal, the dicts stored under the foods key. -/
structure FoodPortion where
  name : String
  calories : ℚ
  protein : ℚ
  carbs : ℚ
  fat : ℚ
deriving DecidableEq, Repr

/-- A meal of a day. -/
structure Meal where
  meal_number : ℕ
  meal_name : String
  foods : List FoodPortion
deriving DecidableEq, Repr

/-- A day of the assembled plan, with its stored rounded totals. -/
structure Day where
  day : ℕ
  meals : List Meal
  logged : Bool
  total_calories : ℚ
  total_protein : ℚ
  total_carbs : ℚ
  total_fat : ℚ
deriving DecidableEq, Repr

/-- The assembled meal plan. -/
structure MealPlan where
  user : String
  daily_calories : ℚ
  macros : MacroTargets
  days : List Day
deriving DecidableEq, Repr

/-- Result of generate_meal_plan_with_cosine_similarity: either the error
dict or the plan dict. -/
inductive GenResult where
  | error (msg : String)
  | ok (plan : MealPlan)
deriving DecidableEq, Repr

/-- The mutable state of the top-up while loop: the meals of the day under
construction, the four running totals, the three slot pointers and the
position of the meal-type cycle. -/
structure LoopState where
  meals : List Meal
  totC : ℚ
  totP : ℚ
  totCb : ℚ
  totF : ℚ
  ptrB : ℕ
  ptrL : ℕ
  ptrD : ℕ
  pos : ℕ
deriving DecidableEq, Repr

/-- The pool the round-robin cycle looks at when at position k. -/
def slotPoolAt (pB pL pD : List Recipe) (k : ℕ) : List Recipe :=
  if k % 3 = 0 then pB else if k % 3 = 1 then pL else pD

/-- The per-slot pointer the cycle uses at position k. -/
def slotPtrAt (s : LoopState) (k : ℕ) : ℕ :=
  if k % 3 = 0 then s.ptrB else if k % 3 = 1 then s.ptrL else s.ptrD

/-- Advance the pointer of the slot at cycle position k. -/
def bumpSlotPtr (s : LoopState) (k : ℕ) : LoopState :=
  if k % 3 = 0 then { s with ptrB := s.ptrB + 1 }
  else if k % 3 = 1 then { s with ptrL := s.ptrL + 1 }
  else { s with ptrD := s.ptrD + 1 }

/-- Summed calories of the foods of a meal, the key of the lowest-meal
selection. -/
def mealCaloriesSum (m : Meal) : ℚ := (m.foods.map (fun f => f.calories)).sum

/-- Index of the first minimal value, as the Python builtin min returns the
first element attaining the minimum. -/
def minIdxAux : ℕ → ℚ → ℕ → List ℚ → ℕ
  | bi, _, _, [] => bi
  | bi, bv, i, x :: xs => if x < bv then minIdxAux i x (i + 1) xs else minIdxAux bi bv (i + 1) xs

/-- Index of the meal with the lowest summed calories. -/
def lowestMealIdx (meals : List Meal) : ℕ :=
  match meals.map mealCaloriesSum with
  | [] => 0
  | v :: vs => minIdxAux 0 v 1 vs

/-- Append a food to the foods of the meal at the given index. -/
def appendFoodAt : List Meal → ℕ → FoodPortion → List Meal
  | [], _, _ => []
  | m :: ms, 0, f => { m with foods := m.foods ++ [f] } :: ms
  | m :: ms, n + 1, f => m :: appendFoodAt ms n f

/-- Append a food to the currently lowest-calorie meal and advance the four
running totals by its nutrients. -/
def addFood (s : LoopState) (f : FoodPortion) : LoopState :=
  { s with meals := appendFoodAt s.meals (lowestMealIdx s.meals) f,
           totC := s.totC + f.calories, totP := s.totP + f.protein,
           totCb := s.totCb + f.carbs, totF := s.totF + f.fat }

/-- A full extra portion of a recipe. -/
def fullPortion (r : Recipe) : FoodPortion :=
  ⟨r.name, r.calories, r.protein, r.carbs, r.fat⟩

/-- A fractional extra portion, the name annotated with the multiplier
rounded to two decimals (rendered here as hundredths). -/
def fracPortion (r : Recipe) (fr : ℚ) : FoodPortion :=
  ⟨r.name ++ " (x" ++ toString (pyRound (fr * 100)) ++ "/100)",
   r.calories * fr, r.protein * fr, r.carbs * fr, r.fat * fr⟩

/-- The top-up while loop of the assembler (source lines 152 to 202), as a
fuel-indexed recursion: none models a run that has not terminated within the
given fuel. -/
def topUp (pB pL pD : List Recipe) (goal : ℚ) : ℕ → LoopState → Option LoopState
  | 0, _ => none
  | fuel + 1, s =>
    if s.totC < goal - 50 then
      match (slotPoolAt pB pL pD s.pos)[slotPtrAt s s.pos]? with
      | some r =>
        let s1 := { bumpSlotPtr s s.pos with pos := s.pos + 1 }
        if goal + 50 < s.totC + r.calories then
          if 2/5 ≤ (goal - s.totC) / r.calories then
            some (addFood s1 (fracPortion r ((goal - s.totC) / r.calories)))
          else some s1
        else topUp pB pL pD goal fuel (addFood s1 (fullPortion r))
      | none => topUp pB pL pD goal fuel { s with pos := s.pos + 1 }
    else some s

/-- The base food of a slot for a given day: the pool row at index
(day - 1) mod pool length. -/
def baseMealFood (pool : List Recipe) (day : ℕ) : FoodPortion :=
  let r := pool.getD ((day - 1) % pool.length) ⟨"", [], [], "", 0, 0, 0, 0⟩
  ⟨r.name, r.calories, r.protein, r.carbs, r.fat⟩

/-- Assemble one day: three base meals picked by rotation, then the top-up
loop, then the rounded totals are stored. -/
def assembleDay (pB pL pD : List Recipe) (goal : ℚ) (day fuel : ℕ) : Option Day :=
  let fB := baseMealFood pB day
  let fL := baseMealFood pL day
  let fD := baseMealFood pD day
  let s0 : LoopState :=
    { meals := [⟨1, "Breakfast", [fB]⟩, ⟨2, "Lunch", [fL]⟩, ⟨3, "Dinner", [fD]⟩],
      totC := fB.calories + fL.calories + fD.calories,
      totP := fB.protein + fL.protein + fD.protein,
      totCb := fB.carbs + fL.carbs + fD.carbs,
      totF := fB.fat + fL.fat + fD.fat,
      ptrB := 0, ptrL := 0, ptrD := 0, pos := 0 }
  (topUp pB pL pD goal fuel s0).map (fun s =>
    { day := day, meals := s.meals, logged := false,
      total_calories := pyRound1 s.totC, total_protein := pyRound1 s.totP,
      total_carbs := pyRound1 s.totCb, total_fat := pyRound1 s.totF })

/-- Sequence the per-day assembly, propagating a non-terminating day. -/
def collectDays (f : ℕ → Option Day) : List ℕ → Option (List Day)
  | [] => some []
  | i :: is =>
    match f i, collectDays f is with
    | some d, some ds => some (d :: ds)
    | _, _ => none

/-- The user profile record consumed by the core, with the dict defaults
already applied at the boundary. -/
structure UserData where
  name : String
  user_id : String
  weight : ℚ
  height : ℚ
  age : ℚ
  bmi : ℚ
  gender : String
  goal : String
  activity_level : String
  health_status : String
  health_conditions : String
  allergies : List String
  preferred_cuisines : List String
deriving DecidableEq, Repr

/-- The combined calorie goal of the assembler, recomputed from the rounded
macro grams: protein*4 + carbs*4 + fat*9 (an integer, so the round call of
the source is the identity on it). -/
def mealCalorieGoal (u : UserData) : ℤ :=
  let m := calculate_macros
    (calculate_calorie_needs u.weight u.height u.age u.gender u.activity_level u.goal) u.goal
  m.protein * 4 + m.carbs * 4 + m.fat * 9

/-- generate_meal_plan_with_cosine_similarity.  The dataset parameter stands
for the on-disk optimized recipes file read back by load_optimized_meals;
the recipes_df parameter is the function argument that the source
immediately shadows with that reload.  Fuel bounds the top-up while loop;
none models a call that does not terminate. -/
def generate_meal_plan_with_cosine_similarity (dataset : List Recipe) (user : UserData)
    (recipes_df : List Recipe) (days meals_per_day fuel : ℕ) : Option GenResult :=
  let m := calculate_macros
    (calculate_calorie_needs user.weight user.height user.age user.gender
      user.activity_level user.goal) user.goal
  let goalCal : ℤ := m.protein * 4 + m.carbs * 4 + m.fat * 9
  let recipes := dataset
  let filtered := filter_recipes_by_allergies_and_cuisines recipes
    user.allergies user.preferred_cuisines
  if filtered = [] then
    some (.error "No recipes available that match your preferences. Try adjusting filters.")
  else
    let gv : Vec4 := ⟨(goalCal : ℚ), (m.fat : ℚ), (m.carbs : ℚ), (m.protein : ℚ)⟩
    let bdf := filtered.filter (fun r => r.meal_type = "breakfast")
    let ldf := filtered.filter (fun r => r.meal_type = "lunch")
    let ddf := filtered.filter (fun r => r.meal_type = "dinner")
    if bdf = [] then some (.error "No breakfast recipes found. Adjust preferences.")
    else if ldf = [] then some (.error "No lunch recipes found. Adjust preferences.")
    else if ddf = [] then some (.error "No dinner recipes found. Adjust preferences.")
    else
      let pB := rankSlot gv bdf days
      let pL := rankSlot gv ldf days
      let pD := rankSlot gv ddf days
      (collectDays (fun i => assembleDay pB pL pD (goalCal : ℚ) (i + 1) fuel)
          (List.range days)).map (fun ds =>
        .ok { user := user.name, daily_calories := (goalCal : ℚ), macros := m, days := ds })

/-- Sum of one nutrient over all foods of all meals of a day under
construction. -/
def mealsSum (g : FoodPortion → ℚ) (ms : List Meal) : ℚ :=
  (ms.map (fun m => (m.foods.map g).sum)).sum

/-- The structural invariant of the loop state: the meal list is nonempty
and the four running totals are exactly the sums over the foods of the
meals. -/
def LoopInv (s : LoopState) : Prop :=
  s.meals ≠ [] ∧
  mealsSum (fun f => f.calories) s.meals = s.totC ∧
  mealsSum (fun f => f.protein) s.meals = s.totP ∧
  mealsSum (fun f => f.carbs) s.meals = s.totCb ∧
  mealsSum (fun f => f.fat) s.meals = s.totF

/-- The loop state used by the witness of the amended band theorem. -/
def stBandW : LoopState :=
  { meals := [⟨1, "Breakfast", []⟩], totC := 0, totP := 0, totCb := 0, totF := 0,
    ptrB := 0, ptrL := 0, ptrD := 0, pos := 0 }

def rcpTinyB : Recipe := ⟨"tb", [], [], "breakfast", 10, 1, 1, 1⟩

def rcpTinyL : Recipe := ⟨"tl", [], [], "lunch", 10, 1, 1, 1⟩

def rcpTinyD : Recipe := ⟨"td", [], [], "dinner", 10, 1, 1, 1⟩

def dsTiny : List Recipe := [rcpTinyB, rcpTinyL, rcpTinyD]

def userMaint : UserData :=
  { name := "u", user_id := "", weight := 70, height := 170, age := 30, bmi := 0,
    gender := "male", goal := "maintain weight", activity_level := "moderately_active",
    health_status := "healthy", health_conditions := "none", allergies := [],
    preferred_cuisines := [] }

def foodP (n : String) : FoodPortion := ⟨n, 10, 1, 1, 1⟩

def stT0 : LoopState :=
  { meals := [⟨1, "Breakfast", [foodP "tb"]⟩, ⟨2, "Lunch", [foodP "tl"]⟩,
      ⟨3, "Dinner", [foodP "td"]⟩],
    totC := 30, totP := 3, totCb := 3, totF := 3, ptrB := 0, ptrL := 0, ptrD := 0, pos := 0 }

def stT1 : LoopState :=
  { meals := [⟨1, "Breakfast", [foodP "tb", foodP "tb"]⟩, ⟨2, "Lunch", [foodP "tl"]⟩,
      ⟨3, "Dinner", [foodP "td"]⟩],
    totC := 40, totP := 4, totCb := 4, totF := 4, ptrB := 1, ptrL := 0, ptrD := 0, pos := 1 }

def stT2 : LoopState :=
  { meals := [⟨1, "Breakfast", [foodP "tb", foodP "tb"]⟩, ⟨2, "Lunch", [foodP "tl", foodP "tl"]⟩,
      ⟨3, "Dinner", [foodP "td"]⟩],
    totC := 50, totP := 5, totCb := 5, totF := 5, ptrB := 1, ptrL := 1, ptrD := 0, pos := 2 }

def stT3 : LoopState :=
  { meals := [⟨1, "Breakfast", [foodP "tb", foodP "tb"]⟩, ⟨2, "Lunch", [foodP "tl", foodP "tl"]⟩,
      ⟨3, "Dinner", [foodP "td", foodP "td"]⟩],
    totC := 60, totP := 6, totCb := 6, totF := 6, ptrB := 1, ptrL := 1, ptrD := 1, pos := 3 }

def rcpBandB : Recipe := ⟨"bb", [], [], "breakfast", 1300, 10, 10, 10⟩

def rcpBandL : Recipe := ⟨"bl", [], [], "lunch", 500, 10, 10, 10⟩

def rcpBandD : Recipe := ⟨"bd", [], [], "dinner", 500, 10, 10, 10⟩

def dsBand : List Recipe := [rcpBandB, rcpBandL, rcpBandD]

def stB0 : LoopState :=
  { meals := [⟨1, "Breakfast", [⟨"bb", 1300, 10, 10, 10⟩]⟩, ⟨2, "Lunch", [⟨"bl", 500, 10, 10, 10⟩]⟩,
      ⟨3, "Dinner", [⟨"bd", 500, 10, 10, 10⟩]⟩],
    totC := 2300, totP := 30, totCb := 30, totF := 30,
    ptrB := 0, ptrL := 0, ptrD := 0, pos := 0 }

def stB1 : LoopState :=
  { meals := [⟨1, "Breakfast", [⟨"bb", 1300, 10, 10, 10⟩]⟩, ⟨2, "Lunch", [⟨"bl", 500, 10, 10, 10⟩]⟩,
      ⟨3, "Dinner", [⟨"bd", 500, 10, 10, 10⟩]⟩],
    totC := 2300, totP := 30, totCb := 30, totF := 30,
    ptrB := 1, ptrL := 0, ptrD := 0, pos := 1 }

def dayBand : Day :=
  { day := 1,
    meals := [⟨1, "Breakfast", [⟨"bb", 1300, 10, 10, 10⟩]⟩, ⟨2, "Lunch", [⟨"bl", 500, 10, 10, 10⟩]⟩,
      ⟨3, "Dinner", [⟨"bd", 500, 10, 10, 10⟩]⟩],
    logged := false, total_calories := 2300, total_protein := 30, total_carbs := 30,
    total_fat := 30 }

def planBand : MealPlan :=
  { user := "u", daily_calories := 2495, macros := ⟨156, 281, 83⟩, days := [dayBand] }

/-- A recipe_details row after the unit sanitization pass: the unit-bearing
columns are already numeric (unparseable values coerced to 0), while the
Calories column, which the source does not sanitize, may be missing or NaN
(modelled as none). -/
structure RecipeRow where
  productName : String
  calories : Option ℚ
  protein : ℚ
  fibre : ℚ
  carbs : ℚ
  sugars : ℚ
  fatPercent : ℚ
  saltPercent : ℚ
  saturatesPercent : ℚ
deriving DecidableEq, Repr

/-- The per-recipe heuristic score of recommend_foods_by_goal: recipes with
missing or non-positive calories score -1, otherwise a goal-specific
nutrient formula applies (goal matched case-insensitively by substring). -/
def recipeGoalScore (goal : String) (r : RecipeRow) : ℚ :=
  match r.calories with
  | none => -1
  | some c =>
    if c ≤ 0 then -1
    else
      let denom := max c 1
      if substrB "weight loss" goal then
        (r.protein / denom) * 5 + (r.fibre / denom) * 3 - r.sugars * 0.1
      else if substrB "weight gain" goal then
        (c / 100) * 3 + (r.protein / denom) * 2
      else if substrB "muscle gain" goal then
        r.protein * 2 + (r.protein / denom) * 5
      else
        ((r.protein + r.fibre * 2) / denom) * 5

/-- recommend_foods_by_goal: score every row, sort by descending score, keep
the first num_recommendations rows, and return only those with a strictly
positive score (rows paired with their scores). -/
def recommend_foods_by_goal (user_goal : String) (rows : List RecipeRow) (n : ℕ) :
    List (RecipeRow × ℚ) :=
  if rows = [] then []
  else
    let goal := lowerS user_goal
    let scored := rows.map (fun r => (r, recipeGoalScore goal r))
    ((sortR (fun x y => decide (y.2 ≤ x.2)) scored).take n).filter
      (fun p => decide (0 < p.2))

def rowGood : RecipeRow := ⟨"good", some 200, 10, 5, 20, 2, 3, 1, 4⟩

def rowZero : RecipeRow := ⟨"zero", some 0, 10, 5, 20, 2, 3, 1, 4⟩

/-- A row of the exercise catalog. -/
structure ExRow where
  title : String
  etype : String
  bodyPart : String
  equipment : String
  level : String
  rating : ℚ
  desc : String
  ratingDesc : String
deriving DecidableEq, Repr

/-- A persisted user-exercise rating row. -/
structure RatingRow where
  user_id : String
  exercise_title : String
  rating : ℚ
deriving DecidableEq, Repr

/-- The exercise dict returned per recommended exercise. -/
structure ExDict where
  name : String
  etype : String
  main_muscle : String
  equipment : String
  level : String
  description : String
  rating : ℚ
  rating_desc : String
  sets : ℕ
  predicted_rating : ℚ
deriving DecidableEq, Repr

/-- Result of recommend_exercises: the error dict for an empty catalog or the
category map with the Cardio, Strength and Flexibility lists. -/
inductive ExResult where
  | error (msg : String)
  | ok (cardio strength flexibility : List ExDict)
deriving DecidableEq, Repr

/-- calculate_body_fat_percentage: Boer formula, sex-specific, clamped to
the range 5 to 50. -/
def calculate_body_fat_percentage (u : UserData) : ℚ :=
  let bfp : ℚ :=
    if lowerS u.gender = "female" then 0.252 * u.weight + 0.131 * u.height - 9.0 + 0.1 * u.age
    else 0.407 * u.weight + 0.267 * u.height - 19.2 + 0.1 * u.age
  max 5 (min 50 bfp)

/-- get_exercise_recommendation_plan: the 1 to 7 plan level from body fat
percentage and BMI threshold bands (BMI recomputed when the profile carries
none). -/
def get_exercise_recommendation_plan (u : UserData) : ℕ :=
  let bmi := if u.bmi = 0 then u.weight / ((u.height / 100) ^ 2) else u.bmi
  let bfp := calculate_body_fat_percentage u
  if bfp < 15 ∧ bmi < 25 then 7
  else if bfp < 20 ∧ bmi < 27 then 6
  else if bfp < 25 ∧ bmi < 30 then 5
  else if bfp < 30 ∧ bmi < 32 then 4
  else if bfp < 35 ∧ bmi < 35 then 3
  else if bfp < 40 then 2
  else 1

/-- Position of a tier in the Beginner, Intermediate, Expert ladder, the key
of the Python min calls over tiers. -/
def tierIdx (t : String) : ℕ :=
  if t = "Beginner" then 0 else if t = "Intermediate" then 1 else 2

/-- Python min of two tiers by ladder index (first argument wins ties). -/
def minTier (a b : String) : String := if tierIdx a ≤ tierIdx b then a else b

/-- The activity_map lookup: tier, days per week and sets, defaulting to the
moderately active entry. -/
def activitySettings (a : String) : String × ℕ × ℕ :=
  if a = "sedentary" then ("Beginner", 3, 2)
  else if a = "lightly active" then ("Beginner", 4, 3)
  else if a = "moderately active" then ("Intermediate", 5, 4)
  else if a = "very active" then ("Expert", 6, 5)
  else ("Intermediate", 5, 4)

/-- The intensity tier of recommend_exercises: plan-level tier, downgraded
for health status, risky health-condition keywords and the older age band,
then capped at the tier implied by the activity level. -/
def exIntensity (u : UserData) : String :=
  let plan := get_exercise_recommendation_plan u
  let i0 : String := if plan ≤ 3 then "Beginner" else if 6 ≤ plan then "Expert"
    else "Intermediate"
  let hs := lowerS u.health_status
  let hc := lowerS u.health_conditions
  let i1 := if hs = "underweight" ∨ hs = "obese" ∨ hs = "poor" ∨
      ["heart", "diabetes", "respiratory", "joint", "knee pain", "back pain"].any
        (fun c => substrB c hc) then "Beginner"
    else if hs = "moderate" then minTier i0 "Intermediate"
    else i0
  let age_group : String := if u.age < 30 then "Young" else if u.age ≤ 50 then "Adult"
    else "Older"
  let i2 := if age_group = "Older" then "Beginner" else i1
  minTier i2 (activitySettings (lowerS u.activity_level)).1

/-- The goal-based category weights (Cardio, Strength, Flexibility), an
exact-key dict lookup with the maintenance split as default. -/
def exWeightsBase (goal : String) : ℚ × ℚ × ℚ :=
  if goal = "Weight Loss" then (0.5, 0.3, 0.2)
  else if goal = "Muscle Gain" then (0.2, 0.6, 0.2)
  else if goal = "Weight Gain" then (0.1, 0.7, 0.2)
  else if goal = "Maintain Weight" then (0.3, 0.4, 0.3)
  else (0.3, 0.4, 0.3)

/-- The adjusted and normalized category weights: female profiles shift
weight toward Flexibility, the older age band further toward Flexibility
and away from Cardio, then the triple is renormalized to sum to one. -/
def exWeights (u : UserData) : ℚ × ℚ × ℚ :=
  let w0 := exWeightsBase u.goal
  let age_group : String := if u.age < 30 then "Young" else if u.age ≤ 50 then "Adult"
    else "Older"
  let w1 := if lowerS u.gender = "female" then
      let f := min 0.4 (w0.2.2 + 0.1)
      let s := max 0.2 (w0.2.1 - 0.05)
      let c := max 0.1 (1.0 - s - f)
      (c, s, f)
    else w0
  let w2 := if age_group = "Older" then
      let f := min 0.5 (w1.2.2 + 0.2)
      let c := max 0.2 (w1.1 - 0.1)
      let s := max 0.1 (1.0 - c - f)
      (c, s, f)
    else w1
  let total := w2.1 + w2.2.1 + w2.2.2
  if 0 < total then (w2.1 / total, w2.2.1 / total, w2.2.2 / total) else w2

/-- Case-insensitive test that some keyword occurs in the field, the
str.contains regex alternation of the source. -/
def containsAnyCI (field : String) (vals : List String) : Bool :=
  vals.any (fun v => substrB (lowerS v) (lowerS field))

/-- The condition_exclusions pass: for each risk keyword found in the health
conditions, drop catalog rows matching the excluded body parts, types,
equipment or levels, in dict order. -/
def exConditionFilter (hc : String) (df : List ExRow) : List ExRow :=
  let df1 := if substrB "knee pain" hc then
      (df.filter (fun e => !(containsAnyCI e.bodyPart ["Quadriceps", "Hamstrings", "Calves"]))).filter
        (fun e => !(containsAnyCI e.etype ["HIIT", "Plyometrics"]))
    else df
  let df2 := if substrB "back pain" hc then
      (df1.filter (fun e => !(containsAnyCI e.bodyPart ["Lower Back"]))).filter
        (fun e => !(containsAnyCI e.equipment ["Barbell"]))
    else df1
  let df3 := if substrB "heart" hc then
      (df2.filter (fun e => !(containsAnyCI e.etype ["HIIT", "Plyometrics"]))).filter
        (fun e => !(containsAnyCI e.level ["Expert"]))
    else df2
  if substrB "joint" hc then
    (df3.filter (fun e => !(containsAnyCI e.etype ["Plyometrics"]))).filter
      (fun e => !(containsAnyCI e.equipment ["Barbell"]))
  else df3

/-- The intensity filter: keep rows whose Level is the computed tier or the
next easier tier. -/
def exLevelFilter (intensity : String) (df : List ExRow) : List ExRow :=
  let allowed := if intensity = "Expert" then [intensity, "Intermediate"]
    else if intensity = "Intermediate" then [intensity, "Beginner"]
    else [intensity]
  df.filter (fun e => allowed.contains e.level)

/-- The catalog rows the level-and-condition filtered DataFrame df holds for
a profile. -/
def exDfOf (u : UserData) (ed : List ExRow) : List ExRow :=
  exLevelFilter (exIntensity u) (exConditionFilter (lowerS u.health_conditions) ed)

/-- The keyword lists of exercise_categories. -/
def exerciseCategoriesKeywords (cat : String) : List String :=
  if cat = "Cardio" then ["Cardio", "HIIT", "Aerobic"]
  else if cat = "Strength" then
    ["Strength", "Olympic Weightlifting", "Plyometrics", "Powerlifting", "Strongman"]
  else ["Stretching", "Yoga", "Mobility", "Flexibility"]

def upperMuscles : List String :=
  ["Shoulders", "Chest", "Upper Back", "Lats", "Biceps", "Triceps", "Forearms", "Trapezius"]

def coreMuscles : List String := ["Abdominals", "Obliques", "Lower Back", "Core"]

def lowerMuscles : List String :=
  ["Quadriceps", "Hamstrings", "Glutes", "Calves", "Adductors", "Abductors"]

/-- Category of an exercise: first matching category keyword in its type,
otherwise Strength when its body part names a known muscle, otherwise
Flexibility. -/
def exCategoryOf (et mm : String) : String :=
  if (exerciseCategoriesKeywords "Cardio").any (fun k => substrB (lowerS k) (lowerS et)) then
    "Cardio"
  else if (exerciseCategoriesKeywords "Strength").any
      (fun k => substrB (lowerS k) (lowerS et)) then "Strength"
  else if (exerciseCategoriesKeywords "Flexibility").any
      (fun k => substrB (lowerS k) (lowerS et)) then "Flexibility"
  else if (upperMuscles ++ coreMuscles ++ lowerMuscles).any
      (fun m => substrB (lowerS m) (lowerS mm)) then "Strength"
  else "Flexibility"

/-- Build the categorized predicted-exercise pairs from the predictions:
titles absent from the filtered catalog are skipped, the first catalog row
with the title supplies the dict fields, and the predicted rating is the
prediction value. -/
def exPredicted (df : List ExRow) (sets : ℕ) (preds : List (String × ℚ)) :
    List (String × ExDict) :=
  preds.filterMap (fun tp =>
    match df.find? (fun e => e.title = tp.1) with
    | none => none
    | some e =>
      some (exCategoryOf (trimS e.etype) (trimS e.bodyPart),
        { name := tp.1, etype := trimS e.etype, main_muscle := trimS e.bodyPart,
          equipment := e.equipment, level := e.level, description := e.desc,
          rating := e.rating, rating_desc := e.ratingDesc, sets := sets,
          predicted_rating := tp.2 }))

/-- Sort exercise dicts by descending predicted rating. -/
def sortByPred (l : List ExDict) : List ExDict :=
  sortR (fun x y => decide (y.predicted_rating ≤ x.predicted_rating)) l

/-- The dicts of one category among the categorized predictions. -/
def catFilter (predicted : List (String × ExDict)) (cat : String) : List ExDict :=
  predicted.filterMap (fun cd => if cd.1 = cat then some cd.2 else none)

/-- Muscle-group bucket of a strength exercise, walking the muscle_groups
dict in order Upper Body, Core, Lower Body and defaulting to Core. -/
def muscleBucket (d : ExDict) : ℕ :=
  let mm := lowerS d.main_muscle
  if upperMuscles.any (fun m => substrB (lowerS m) mm) then 0
  else if coreMuscles.any (fun m => substrB (lowerS m) mm) then 1
  else if lowerMuscles.any (fun m => substrB (lowerS m) mm) then 2
  else 1

/-- The weighted category quota, int() truncation of num * weight / total. -/
def quotaFor (n : ℕ) (w total : ℚ) : ℕ := (⌊(n : ℚ) * w / total⌋).toNat

/-- The Strength selection with muscle-group diversity: about 40 percent of
the slots from the upper-body bucket, 40 percent from the lower-body bucket,
the remainder (at least one) from the core bucket, topping up from the rest
of the ranked category pool. -/
def selectStrength (cat : List ExDict) (numEx : ℕ) : List ExDict :=
  if cat = [] then []
  else
    let ub := cat.filter (fun d => muscleBucket d = 0)
    let cb := cat.filter (fun d => muscleBucket d = 1)
    let lb := cat.filter (fun d => muscleBucket d = 2)
    let uc := max 1 (⌊(numEx : ℚ) * 0.4⌋).toNat
    let lc := max 1 (⌊(numEx : ℚ) * 0.4⌋).toNat
    let cc := max 1 (numEx - uc - lc)
    let base := ub.take uc ++ lb.take lc ++ cb.take cc
    let rem := numEx - base.length
    if 0 < rem then base ++ (cat.filter (fun d => !(base.contains d))).take rem
    else base

/-- The rating-sorted fallback fill of a category that is short of its
weighted quota: append top static-rated rows of the keyword-matched slice of
the filtered catalog, each with the default predicted rating 3.0. -/
def fallbackFill (df : List ExRow) (cat : String) (sets quota : ℕ)
    (sel : List ExDict) : List ExDict :=
  if sel.length < quota then
    if df.filter (fun e => containsAnyCI e.etype (exerciseCategoriesKeywords cat)) = [] then
      sel
    else
      sel ++ (((sortR (fun x y => decide (y.rating ≤ x.rating))
          (df.filter (fun e => containsAnyCI e.etype (exerciseCategoriesKeywords cat)))).take
        (min (quota - sel.length)
          (df.filter (fun e => containsAnyCI e.etype (exerciseCategoriesKeywords cat))).length)).map
        (fun e =>
          { name := e.title, etype := e.etype, main_muscle := e.bodyPart,
            equipment := e.equipment, level := e.level, description := e.desc,
            rating := e.rating, rating_desc := e.ratingDesc, sets := sets,
            predicted_rating := 3 }))
  else sel

/-- The fallback when the prediction list itself is empty: rank the filtered
catalog by its static rating column. -/
def exPredsFinal (df : List ExRow) (preds0 : List (String × ℚ)) : List (String × ℚ) :=
  if preds0 = [] then
    (sortR (fun x y => decide (y.rating ≤ x.rating)) df).map (fun e => (e.title, e.rating))
  else preds0

/-- The three category selections, the per-category loop of the source:
weighted quota, predicted-rating ranking, Strength diversity, then the
rating-sorted fallback fill. -/
def exSelections (df : List ExRow) (sets n : ℕ) (w : ℚ × ℚ × ℚ)
    (preds : List (String × ℚ)) : List ExDict × List ExDict × List ExDict :=
  let predicted := exPredicted df sets preds
  let total := w.1 + w.2.1 + w.2.2
  let nC := quotaFor n w.1 total
  let nS := quotaFor n w.2.1 total
  let nF := quotaFor n w.2.2 total
  let selC := if nC = 0 then [] else (sortByPred (catFilter predicted "Cardio")).take nC
  let selS := if nS = 0 then [] else selectStrength (sortByPred (catFilter predicted "Strength")) nS
  let selF := if nF = 0 then [] else (sortByPred (catFilter predicted "Flexibility")).take nF
  (fallbackFill df "Cardio" sets nC selC,
   fallbackFill df "Strength" sets nS selS,
   fallbackFill df "Flexibility" sets nF selF)

/-- recommend_exercises.  The sklearn KNN collaborative-filtering step,
reached only when the rating history is nonempty, is abstracted as the
knnPredict parameter producing the predicted (title, rating) pairs; every
other step follows the source. -/
def recommend_exercises (u : UserData) (exercise_data : List ExRow)
    (ratings : List RatingRow)
    (knnPredict : List RatingRow → List ExRow → String → List (String × ℚ))
    (num_recommendations : ℕ) : ExResult :=
  if exercise_data = [] then .error "No exercise data available"
  else
    let sets := (activitySettings (lowerS u.activity_level)).2.2
    let df := exDfOf u exercise_data
    let sel := exSelections df sets num_recommendations (exWeights u)
      (exPredsFinal df (if ratings = [] then
          exercise_data.map (fun e => (e.title, (3 : ℚ)))
        else knnPredict ratings exercise_data u.user_id))
    .ok sel.1 sel.2.1 sel.2.2

/-!
## Theorems
-/

theorem pyRound_abs_sub_le (q : ℚ) : |(pyRound q : ℚ) - q| ≤ 1/2 := by
  have hf : (⌊q⌋ : ℚ) ≤ q := Int.floor_le q
  have hf1 : q < (⌊q⌋ : ℚ) + 1 := Int.lt_floor_add_one q
  unfold pyRound
  dsimp only
  split_ifs with h1 h2 h3 <;>
    · rw [abs_le]
      constructor <;> push_cast <;> linarith

theorem pyRound_ge_floor (q : ℚ) : ⌊q⌋ ≤ pyRound q := by
  unfold pyRound
  dsimp only
  split_ifs <;> omega

theorem pyRound_le_of_le (q : ℚ) (N : ℤ) (h : q ≤ (N : ℚ)) : pyRound q ≤ N := by
  have hfl : ⌊q⌋ ≤ N := by
    have := Int.floor_le_floor h
    simpa using this
  unfold pyRound
  dsimp only
  split_ifs with h1 h2 h3
  · exact hfl
  · -- the fractional part is above one half, so q is not an integer
    have hq : (⌊q⌋ : ℚ) < q := by linarith
    have : ⌊q⌋ < N := by
      rcases lt_or_eq_of_le hfl with h' | h'
      · exact h'
      · exfalso
        rw [h'] at hq
        linarith
    omega
  · exact hfl
  · have hq : (⌊q⌋ : ℚ) < q := by linarith
    have : ⌊q⌋ < N := by
      rcases lt_or_eq_of_le hfl with h' | h'
      · exact h'
      · exfalso
        rw [h'] at hq
        linarith
    omega

theorem pyRound_ge_of_ge (q : ℚ) (N : ℤ) (h : (N : ℚ) ≤ q) : N ≤ pyRound q := by
  have : N ≤ ⌊q⌋ := Int.le_floor.mpr h
  have := pyRound_ge_floor q
  omega

theorem pyRound1_abs_sub_le (q : ℚ) : |pyRound1 q - q| ≤ 1/20 := by
  have h := pyRound_abs_sub_le (10 * q)
  unfold pyRound1
  have h1 : (pyRound (10 * q) : ℚ) / 10 - q = ((pyRound (10 * q) : ℚ) - 10 * q) / 10 := by
    ring
  rw [h1, abs_div]
  rw [abs_of_pos (show (0:ℚ) < 10 by norm_num)]
  linarith

theorem mem_insertR {α : Type} (r : α → α → Bool) (x : α) (l : List α) (b : α) :
    b ∈ insertR r x l ↔ b = x ∨ b ∈ l := by
  induction l with
  | nil => simp [insertR]
  | cons y ys ih =>
    by_cases h : r x y
    · simp [insertR, h]
    · simp only [insertR, if_neg h, List.mem_cons, ih]
      tauto

theorem mem_sortR {α : Type} (r : α → α → Bool) (l : List α) (b : α) :
    b ∈ sortR r l ↔ b ∈ l := by
  induction l with
  | nil => simp [sortR]
  | cons x xs ih =>
    simp only [sortR, mem_insertR, ih, List.mem_cons]

theorem length_insertR {α : Type} (r : α → α → Bool) (x : α) (l : List α) :
    (insertR r x l).length = l.length + 1 := by
  induction l with
  | nil => simp [insertR]
  | cons y ys ih =>
    by_cases h : r x y <;> simp [insertR, h, ih]

theorem length_sortR {α : Type} (r : α → α → Bool) (l : List α) :
    (sortR r l).length = l.length := by
  induction l with
  | nil => rfl
  | cons x xs ih => simp [sortR, length_insertR, ih]

/-- Sortedness of the comparison sort, stated through a key function into a
linear order: if the Boolean comparator agrees with key order, the sorted
list is non-increasing on keys. -/
theorem sortR_sorted_key {α β : Type} [LinearOrder β] (r : α → α → Bool) (K : α → β)
    (hb : ∀ x y, r x y = true ↔ K y ≤ K x) (l : List α) :
    (sortR r l).Sorted (fun a b => K b ≤ K a) := by
  induction l with
  | nil => simp [sortR]
  | cons x xs ih =>
    have hins : ∀ (L : List α), L.Sorted (fun a b => K b ≤ K a) →
        (insertR r x L).Sorted (fun a b => K b ≤ K a) := by
      intro L
      induction L with
      | nil => intro _; simp [insertR]
      | cons y ys ihy =>
        intro hs
        rw [List.sorted_cons] at hs
        by_cases h : r x y
        · have hxy : K y ≤ K x := (hb x y).mp h
          simp only [insertR, if_pos h]
          rw [List.sorted_cons]
          refine ⟨?_, ?_⟩
          · intro b hbmem
            rcases List.mem_cons.mp hbmem with rfl | hbin
            · exact hxy
            · exact le_trans (hs.1 b hbin) hxy
          · rw [List.sorted_cons]
            exact hs
        · have hyx : K x ≤ K y := by
            have hnot : ¬ (K y ≤ K x) := fun hle => h ((hb x y).mpr hle)
            exact le_of_lt (lt_of_not_le hnot)
          simp only [insertR, if_neg h]
          rw [List.sorted_cons]
          refine ⟨?_, ihy hs.2⟩
          intro b hbmem
          rcases (mem_insertR r x ys b).mp hbmem with rfl | hbin
          · exact hyx
          · exact hs.1 b hbin
    exact hins (sortR r xs) ih

/-- C4: generate_meal_plan_with_cosine_similarity discards its recipes_df
argument and reloads the catalog via load_optimized_meals, so for identical
profile, day count and on-disk dataset the returned plan is identical for
any two recipe-catalog arguments. -/
theorem generate_plan_independent_of_recipes_df (dataset : List Recipe) (user : UserData)
    (r1 r2 : List Recipe) (days meals_per_day fuel : ℕ) :
    generate_meal_plan_with_cosine_similarity dataset user r1 days meals_per_day fuel =
      generate_meal_plan_with_cosine_similarity dataset user r2 days meals_per_day fuel := rfl

/-- C5 counterexample: with weight = 1 > 0 and height = 1 > 0 the age 1000
drives the Mifflin St Jeor BMR negative and calculate_calorie_needs returns
-6650, which is not strictly positive, refuting the claim as stated. -/
theorem calculate_calorie_needs_pos_counterexample :
    (0 : ℚ) < 1 ∧
    calculate_calorie_needs 1 1 1000 "female" "sedentary" "weight loss" = -6650 ∧
    ¬ 0 < calculate_calorie_needs 1 1 1000 "female" "sedentary" "weight loss" := by
  have hval : calculate_calorie_needs 1 1 1000 "female" "sedentary" "weight loss" = -6650 := by
    norm_num [calculate_calorie_needs, activityMultiplier, goalAdjustment, pyRound, Int.fract,
      show lowerS "female" = "female" from by decide,
      show lowerS "sedentary" = "sedentary" from by decide,
      show trimS (lowerS "weight loss") = "weight loss" from by decide,
      show substrB "weight loss" "weight loss" = true from by decide,
      show (("female" : String) = "male") = False from
        eq_false (by decide : ¬ ("female" : String) = "male")]
  exact ⟨by norm_num, hval, by rw [hval]; norm_num⟩

/-- C5 amended: the calorie figure of calculate_calorie_needs is always a
multiple of 50, and it is strictly positive under the additional realistic
bounds weight at least 40, height at least 140 and age at most 90 (strict
positivity fails for unbounded age, see the counterexample). -/
theorem calculate_calorie_needs_mult50_pos (weight height age : ℚ)
    (gender activity_level goal : String) :
    (∃ k : ℤ, calculate_calorie_needs weight height age gender activity_level goal = 50 * k) ∧
    (40 ≤ weight → 140 ≤ height → age ≤ 90 →
      0 < calculate_calorie_needs weight height age gender activity_level goal) := by
  simp only [calculate_calorie_needs]
  constructor
  · exact ⟨_, mul_comm _ _⟩
  · intro hw hh ha
    set bmr : ℚ := if lowerS gender = "male" then 10 * weight + 6.25 * height - 5 * age + 5
      else 10 * weight + 6.25 * height - 5 * age - 161 with hbmr
    have hb : (664 : ℚ) ≤ bmr := by
      rw [hbmr]; split_ifs <;> linarith
    have hm1 : (1.2 : ℚ) ≤ activityMultiplier (lowerS activity_level) := by
      unfold activityMultiplier; split_ifs <;> norm_num
    have hb0 : (0 : ℚ) ≤ bmr := by linarith
    have hprod : (664 : ℚ) * 1.2 ≤ bmr * activityMultiplier (lowerS activity_level) :=
      mul_le_mul hb hm1 (by norm_num) hb0
    have hadj : (-500 : ℚ) ≤ goalAdjustment (trimS (lowerS goal)) := by
      unfold goalAdjustment; split_ifs <;> norm_num
    have hq : ((1 : ℤ) : ℚ) ≤ (bmr * activityMultiplier (lowerS activity_level) +
        goalAdjustment (trimS (lowerS goal))) / 50 := by
      rw [le_div_iff₀ (by norm_num : (0 : ℚ) < 50)]
      push_cast
      nlinarith
    have h1 := pyRound_ge_of_ge _ 1 hq
    omega

/-- C5 amended witness at the default profile values. -/
theorem calculate_calorie_needs_mult50_pos_witness :
    (40 : ℚ) ≤ 70 ∧ (140 : ℚ) ≤ 170 ∧ (30 : ℚ) ≤ 90 ∧
    ((∃ k : ℤ, calculate_calorie_needs 70 170 30 "male" "moderately_active"
        "Maintain Weight" = 50 * k) ∧
      0 < calculate_calorie_needs 70 170 30 "male" "moderately_active" "Maintain Weight") := by
  have h := calculate_calorie_needs_mult50_pos 70 170 30 "male" "moderately_active"
    "Maintain Weight"
  exact ⟨by norm_num, by norm_num, by norm_num,
    h.1, h.2 (by norm_num) (by norm_num) (by norm_num)⟩

/-- C7: filter_recipes_by_allergies_and_cuisines is idempotent: running the
filter again with the same allergy and cuisine arguments on its own output
returns the output unchanged. -/
theorem filter_recipes_idempotent (rows : List Recipe) (allergies cuisines : List String) :
    filter_recipes_by_allergies_and_cuisines
      (filter_recipes_by_allergies_and_cuisines rows allergies cuisines) allergies cuisines =
      filter_recipes_by_allergies_and_cuisines rows allergies cuisines := by
  by_cases h0 : rows = []
  · subst h0
    simp [filter_recipes_by_allergies_and_cuisines]
  · set na := (allergies.map (fun a => lowerS (trimS a))).map lowerS with hna
    set d1 := (if allergies ≠ [] then rows.filter (fun r => !(allergyHit na r)) else rows)
      with hd1
    set F := (if cuisines ≠ [] then
        (if d1 ≠ [] then d1.filter (fun r => cuisineHit cuisines r) else d1) else d1) with hF
    have hFdef : filter_recipes_by_allergies_and_cuisines rows allergies cuisines = F := by
      simp only [filter_recipes_by_allergies_and_cuisines, if_neg h0]
    rw [hFdef]
    by_cases hF0 : F = []
    · rw [hF0]
      simp [filter_recipes_by_allergies_and_cuisines]
    · have hsub : ∀ r ∈ F, r ∈ d1 := by
        intro r hr
        rw [hF] at hr
        split_ifs at hr with hc hd
        · exact (List.mem_filter.mp hr).1
        · exact hr
        · exact hr
      have hmem_d1 : allergies ≠ [] → ∀ r ∈ d1, (!(allergyHit na r)) = true := by
        intro hne r hr
        rw [hd1, if_pos hne] at hr
        exact (List.mem_filter.mp hr).2
      have hcu : cuisines ≠ [] → ∀ r ∈ F, cuisineHit cuisines r = true := by
        intro hc r hr
        rw [hF, if_pos hc] at hr
        by_cases hd : d1 ≠ []
        · rw [if_pos hd] at hr
          exact (List.mem_filter.mp hr).2
        · rw [if_neg hd] at hr
          rw [not_not.mp hd] at hr
          cases hr
      simp only [filter_recipes_by_allergies_and_cuisines, if_neg hF0]
      have hstage1 : (if allergies ≠ [] then F.filter (fun r => !(allergyHit na r)) else F)
          = F := by
        by_cases ha : allergies ≠ []
        · rw [if_pos ha, List.filter_eq_self.mpr]
          intro r hr
          exact hmem_d1 ha r (hsub r hr)
        · rw [if_neg ha]
      rw [hstage1]
      by_cases hc : cuisines ≠ []
      · rw [if_pos hc, if_pos hF0, List.filter_eq_self.mpr]
        intro r hr
        exact hcu hc r hr
      · rw [if_neg hc]

theorem length_appendFoodAt (ms : List Meal) (i : ℕ) (f : FoodPortion) :
    (appendFoodAt ms i f).length = ms.length := by
  induction ms generalizing i with
  | nil => rfl
  | cons m ms ih =>
    cases i with
    | zero => rfl
    | succ n => simp [appendFoodAt, ih]

theorem mealsSum_appendFoodAt (g : FoodPortion → ℚ) (ms : List Meal) (i : ℕ)
    (f : FoodPortion) (h : i < ms.length) :
    mealsSum g (appendFoodAt ms i f) = mealsSum g ms + g f := by
  induction ms generalizing i with
  | nil => simp at h
  | cons m ms ih =>
    cases i with
    | zero =>
      simp [appendFoodAt, mealsSum]
      ring
    | succ n =>
      have hn : n < ms.length := by simpa using h
      simp only [appendFoodAt, mealsSum, List.map_cons, List.sum_cons]
      have := ih n hn
      simp only [mealsSum] at this
      rw [this]
      ring

theorem minIdxAux_cases (xs : List ℚ) (bi : ℕ) (bv : ℚ) (i : ℕ) :
    minIdxAux bi bv i xs = bi ∨
      (i ≤ minIdxAux bi bv i xs ∧ minIdxAux bi bv i xs < i + xs.length) := by
  induction xs generalizing bi bv i with
  | nil => left; rfl
  | cons x xs ih =>
    simp only [minIdxAux]
    by_cases h : x < bv
    · rw [if_pos h]
      rcases ih i x (i + 1) with h1 | h1
      · right
        rw [h1]
        simp
    --
      · right
        refine ⟨by omega, by simpa [Nat.add_comm, Nat.add_left_comm] using h1.2⟩
    · rw [if_neg h]
      rcases ih bi bv (i + 1) with h1 | h1
      · left; exact h1
      · right
        refine ⟨by omega, by simp at h1 ⊢; omega⟩

theorem lowestMealIdx_lt (ms : List Meal) (h : ms ≠ []) :
    lowestMealIdx ms < ms.length := by
  cases ms with
  | nil => exact absurd rfl h
  | cons m ms =>
    simp only [lowestMealIdx, List.map_cons]
    rcases minIdxAux_cases (ms.map mealCaloriesSum) 0 (mealCaloriesSum m) 1 with h1 | h1
    · rw [h1]; simp
    · rw [List.length_cons]
      have := h1.2
      simp only [List.length_map] at this
      omega

theorem bumpSlotPtr_meals (s : LoopState) (k : ℕ) : (bumpSlotPtr s k).meals = s.meals := by
  unfold bumpSlotPtr; split_ifs <;> rfl

theorem bumpSlotPtr_totC (s : LoopState) (k : ℕ) : (bumpSlotPtr s k).totC = s.totC := by
  unfold bumpSlotPtr; split_ifs <;> rfl

theorem bumpSlotPtr_totP (s : LoopState) (k : ℕ) : (bumpSlotPtr s k).totP = s.totP := by
  unfold bumpSlotPtr; split_ifs <;> rfl

theorem bumpSlotPtr_totCb (s : LoopState) (k : ℕ) : (bumpSlotPtr s k).totCb = s.totCb := by
  unfold bumpSlotPtr; split_ifs <;> rfl

theorem bumpSlotPtr_totF (s : LoopState) (k : ℕ) : (bumpSlotPtr s k).totF = s.totF := by
  unfold bumpSlotPtr; split_ifs <;> rfl

theorem bumpSlotPtr_ptrAt_self (s : LoopState) (k : ℕ) :
    slotPtrAt (bumpSlotPtr s k) k = slotPtrAt s k + 1 := by
  have h3 : k % 3 = 0 ∨ k % 3 = 1 ∨ k % 3 = 2 := by omega
  rcases h3 with h | h | h <;> simp [slotPtrAt, bumpSlotPtr, h]

theorem addFood_inv (s : LoopState) (f : FoodPortion) (h : LoopInv s) :
    LoopInv (addFood s f) := by
  obtain ⟨hne, hc, hp, hcb, hf⟩ := h
  have hidx := lowestMealIdx_lt s.meals hne
  have hlen : (appendFoodAt s.meals (lowestMealIdx s.meals) f).length = s.meals.length :=
    length_appendFoodAt _ _ _
  refine ⟨?_, ?_, ?_, ?_, ?_⟩
  · intro hnil
    simp only [addFood] at hnil
    rw [hnil] at hlen
    have : s.meals.length = 0 := by simpa using hlen.symm
    exact hne (List.length_eq_zero.mp this)
  all_goals
    simp only [addFood, mealsSum_appendFoodAt _ _ _ _ hidx, hc, hp, hcb, hf]

/-- An invariant state is carried to an invariant state by the top-up loop. -/
theorem topUp_inv (pB pL pD : List Recipe) (goal : ℚ) (fuel : ℕ) :
    ∀ s s', LoopInv s → topUp pB pL pD goal fuel s = some s' → LoopInv s' := by
  induction fuel with
  | zero => intro s s' _ h; simp [topUp] at h
  | succ n ih =>
    intro s s' hinv h
    rw [show topUp pB pL pD goal (n + 1) s =
      (if s.totC < goal - 50 then
        match (slotPoolAt pB pL pD s.pos)[slotPtrAt s s.pos]? with
        | some r =>
          let s1 := { bumpSlotPtr s s.pos with pos := s.pos + 1 }
          if goal + 50 < s.totC + r.calories then
            if 2/5 ≤ (goal - s.totC) / r.calories then
              some (addFood s1 (fracPortion r ((goal - s.totC) / r.calories)))
            else some s1
          else topUp pB pL pD goal n (addFood s1 (fullPortion r))
        | none => topUp pB pL pD goal n { s with pos := s.pos + 1 }
      else some s) from rfl] at h
    have hinv1 : LoopInv { bumpSlotPtr s s.pos with pos := s.pos + 1 } := by
      obtain ⟨hne, hc, hp, hcb, hf⟩ := hinv
      exact ⟨by simpa [bumpSlotPtr_meals] using hne,
        by simpa [bumpSlotPtr_meals, bumpSlotPtr_totC] using hc,
        by simpa [bumpSlotPtr_meals, bumpSlotPtr_totP] using hp,
        by simpa [bumpSlotPtr_meals, bumpSlotPtr_totCb] using hcb,
        by simpa [bumpSlotPtr_meals, bumpSlotPtr_totF] using hf⟩
    by_cases hc : s.totC < goal - 50
    · rw [if_pos hc] at h
      cases hget : (slotPoolAt pB pL pD s.pos)[slotPtrAt s s.pos]? with
      | some r =>
        rw [hget] at h
        simp only at h
        by_cases hov : goal + 50 < s.totC + r.calories
        · rw [if_pos hov] at h
          by_cases hfr : 2/5 ≤ (goal - s.totC) / r.calories
          · rw [if_pos hfr] at h
            cases h
            exact addFood_inv _ _ hinv1
          · rw [if_neg hfr] at h
            cases h
            exact hinv1
        · rw [if_neg hov] at h
          exact ih _ _ (addFood_inv _ _ hinv1) h
      | none =>
        rw [hget] at h
        simp only at h
        refine ih _ _ ?_ h
        obtain ⟨hne, hc', hp, hcb, hf⟩ := hinv
        exact ⟨hne, hc', hp, hcb, hf⟩
    · rw [if_neg hc] at h
      cases h
      exact hinv

theorem collectDays_mem (f : ℕ → Option Day) (l : List ℕ) (ds : List Day)
    (h : collectDays f l = some ds) : ∀ d ∈ ds, ∃ i ∈ l, f i = some d := by
  induction l generalizing ds with
  | nil =>
    simp only [collectDays, Option.some.injEq] at h
    subst h
    simp
  | cons i is ih =>
    simp only [collectDays] at h
    cases hf : f i with
    | none => rw [hf] at h; simp at h
    | some d0 =>
      rw [hf] at h
      cases hc : collectDays f is with
      | none => rw [hc] at h; simp at h
      | some ds' =>
        rw [hc] at h
        simp only [Option.some.injEq] at h
        subst h
        intro d hd
        rcases List.mem_cons.mp hd with rfl | hd'
        · exact ⟨i, List.mem_cons_self i is, hf⟩
        · obtain ⟨j, hj, hfj⟩ := ih ds' hc d hd'
          exact ⟨j, List.mem_cons_of_mem _ hj, hfj⟩

/-- The totals stored by assembleDay agree with the recomputed sums over the
stored portions up to the one-decimal rounding. -/
theorem assembleDay_totals (pB pL pD : List Recipe) (goal : ℚ) (day fuel : ℕ) (d : Day)
    (h : assembleDay pB pL pD goal day fuel = some d) :
    |d.total_calories - mealsSum (fun f => f.calories) d.meals| ≤ 1/10 ∧
    |d.total_protein - mealsSum (fun f => f.protein) d.meals| ≤ 1/10 ∧
    |d.total_carbs - mealsSum (fun f => f.carbs) d.meals| ≤ 1/10 ∧
    |d.total_fat - mealsSum (fun f => f.fat) d.meals| ≤ 1/10 := by
  simp only [assembleDay] at h
  cases ht : topUp pB pL pD goal fuel
      { meals := [⟨1, "Breakfast", [baseMealFood pB day]⟩, ⟨2, "Lunch", [baseMealFood pL day]⟩,
          ⟨3, "Dinner", [baseMealFood pD day]⟩],
        totC := (baseMealFood pB day).calories + (baseMealFood pL day).calories +
          (baseMealFood pD day).calories,
        totP := (baseMealFood pB day).protein + (baseMealFood pL day).protein +
          (baseMealFood pD day).protein,
        totCb := (baseMealFood pB day).carbs + (baseMealFood pL day).carbs +
          (baseMealFood pD day).carbs,
        totF := (baseMealFood pB day).fat + (baseMealFood pL day).fat +
          (baseMealFood pD day).fat,
        ptrB := 0, ptrL := 0, ptrD := 0, pos := 0 } with
  | none =>
    rw [ht] at h
    simp at h
  | some s =>
    rw [ht] at h
    simp only [Option.map_some', Option.some.injEq] at h
    have hinv0 : LoopInv
        { meals := [⟨1, "Breakfast", [baseMealFood pB day]⟩, ⟨2, "Lunch", [baseMealFood pL day]⟩,
            ⟨3, "Dinner", [baseMealFood pD day]⟩],
          totC := (baseMealFood pB day).calories + (baseMealFood pL day).calories +
            (baseMealFood pD day).calories,
          totP := (baseMealFood pB day).protein + (baseMealFood pL day).protein +
            (baseMealFood pD day).protein,
          totCb := (baseMealFood pB day).carbs + (baseMealFood pL day).carbs +
            (baseMealFood pD day).carbs,
          totF := (baseMealFood pB day).fat + (baseMealFood pL day).fat +
            (baseMealFood pD day).fat,
          ptrB := 0, ptrL := 0, ptrD := 0, pos := 0 } := by
      refine ⟨by simp, ?_, ?_, ?_, ?_⟩ <;> simp [mealsSum, add_assoc]
    have hinv := topUp_inv pB pL pD goal fuel _ s hinv0 ht
    obtain ⟨_, hcEq, hpEq, hcbEq, hfEq⟩ := hinv
    subst h
    dsimp only
    rw [hcEq, hpEq, hcbEq, hfEq]
    refine ⟨?_, ?_, ?_, ?_⟩ <;>
      exact le_trans (pyRound1_abs_sub_le _) (by norm_num)

/-- C3: every Day of a plan returned by the assembler stores totals that
equal the sums of the corresponding fields over all FoodPortions of all its
Meals, within the 0.1 tolerance left by rounding to one decimal. -/
theorem generate_plan_day_totals (dataset : List Recipe) (user : UserData)
    (recipes_df : List Recipe) (days meals_per_day fuel : ℕ) (plan : MealPlan)
    (h : generate_meal_plan_with_cosine_similarity dataset user recipes_df days meals_per_day
        fuel = some (.ok plan)) :
    ∀ d ∈ plan.days,
      |d.total_calories - mealsSum (fun f => f.calories) d.meals| ≤ 1/10 ∧
      |d.total_protein - mealsSum (fun f => f.protein) d.meals| ≤ 1/10 ∧
      |d.total_carbs - mealsSum (fun f => f.carbs) d.meals| ≤ 1/10 ∧
      |d.total_fat - mealsSum (fun f => f.fat) d.meals| ≤ 1/10 := by
  simp only [generate_meal_plan_with_cosine_similarity] at h
  split_ifs at h with h1 h2 h3 h4
  · simp at h
  · simp at h
  · simp at h
  · simp at h
  · cases hc : collectDays
        (fun i => assembleDay
          (rankSlot _ ((filter_recipes_by_allergies_and_cuisines dataset user.allergies
            user.preferred_cuisines).filter (fun r => r.meal_type = "breakfast")) days)
          (rankSlot _ ((filter_recipes_by_allergies_and_cuisines dataset user.allergies
            user.preferred_cuisines).filter (fun r => r.meal_type = "lunch")) days)
          (rankSlot _ ((filter_recipes_by_allergies_and_cuisines dataset user.allergies
            user.preferred_cuisines).filter (fun r => r.meal_type = "dinner")) days)
          _ (i + 1) fuel) (List.range days) with
    | none =>
      rw [hc] at h
      simp at h
    | some ds =>
      rw [hc] at h
      simp only [Option.map_some', Option.some.injEq, GenResult.ok.injEq] at h
      have hdays : plan.days = ds := by
        rw [← h]
      rw [hdays]
      intro d hd
      obtain ⟨i, _, hi⟩ := collectDays_mem _ _ _ hc d hd
      exact assembleDay_totals _ _ _ _ _ _ _ hi

theorem posUpdate_totC (s : LoopState) (j : ℕ) : ({ s with pos := j } : LoopState).totC = s.totC := rfl

theorem slotPtrAt_posUpdate (s : LoopState) (j k : ℕ) :
    slotPtrAt ({ s with pos := j } : LoopState) k = slotPtrAt s k := by
  unfold slotPtrAt; split_ifs <;> rfl

theorem addFood_totC (s : LoopState) (f : FoodPortion) :
    (addFood s f).totC = s.totC + f.calories := rfl

/-- C1 amended: whenever the top-up loop terminates on its own (some final
state), the final running calorie total stays at or below calorie_goal + 50
provided it started at or below that bound, and it can end strictly below
calorie_goal - 50 only when the loop exited through the overshoot branch
with a fraction below 0.4: in that case the candidate recipe just examined
(pool of the slot last served, at the pointer just advanced past) overshoots
the band and closes less than 40 percent of the gap.  On the fraction branch
that is taken the total lands exactly on calorie_goal, inside the band. -/
theorem topUp_band (pB pL pD : List Recipe) (goal : ℚ) (fuel : ℕ) :
    ∀ s s', topUp pB pL pD goal fuel s = some s' →
      (s.totC ≤ goal + 50 → s'.totC ≤ goal + 50) ∧
      (s'.totC < goal - 50 →
        ∃ r, (slotPoolAt pB pL pD (s'.pos - 1))[slotPtrAt s' (s'.pos - 1) - 1]? = some r ∧
          goal + 50 < s'.totC + r.calories ∧ (goal - s'.totC) / r.calories < 2/5) := by
  induction fuel with
  | zero => intro s s' h; simp [topUp] at h
  | succ n ih =>
    intro s s' h
    rw [show topUp pB pL pD goal (n + 1) s =
      (if s.totC < goal - 50 then
        match (slotPoolAt pB pL pD s.pos)[slotPtrAt s s.pos]? with
        | some r =>
          let s1 := { bumpSlotPtr s s.pos with pos := s.pos + 1 }
          if goal + 50 < s.totC + r.calories then
            if 2/5 ≤ (goal - s.totC) / r.calories then
              some (addFood s1 (fracPortion r ((goal - s.totC) / r.calories)))
            else some s1
          else topUp pB pL pD goal n (addFood s1 (fullPortion r))
        | none => topUp pB pL pD goal n { s with pos := s.pos + 1 }
      else some s) from rfl] at h
    by_cases hcond : s.totC < goal - 50
    · rw [if_pos hcond] at h
      cases hget : (slotPoolAt pB pL pD s.pos)[slotPtrAt s s.pos]? with
      | some r =>
        rw [hget] at h
        simp only at h
        have hs1C : ({ bumpSlotPtr s s.pos with pos := s.pos + 1 } : LoopState).totC
            = s.totC := by
          rw [posUpdate_totC, bumpSlotPtr_totC]
        by_cases hov : goal + 50 < s.totC + r.calories
        · rw [if_pos hov] at h
          have hcal : (100 : ℚ) < r.calories := by linarith
          have hcal0 : r.calories ≠ 0 := by linarith
          by_cases hfr : 2/5 ≤ (goal - s.totC) / r.calories
          · rw [if_pos hfr] at h
            cases h
            have htotC : (addFood { bumpSlotPtr s s.pos with pos := s.pos + 1 }
                (fracPortion r ((goal - s.totC) / r.calories))).totC = goal := by
              rw [addFood_totC, hs1C]
              show s.totC + r.calories * ((goal - s.totC) / r.calories) = goal
              rw [mul_comm, div_mul_cancel₀ _ hcal0]
              ring
            constructor
            · intro _
              rw [htotC]
              linarith
            · intro hlt
              rw [htotC] at hlt
              linarith
          · rw [if_neg hfr] at h
            cases h
            constructor
            · intro _
              rw [hs1C]
              linarith
            · intro _
              refine ⟨r, ?_, ?_, ?_⟩
              · have hpos : ({ bumpSlotPtr s s.pos with pos := s.pos + 1 } : LoopState).pos - 1
                    = s.pos := rfl
                rw [hpos]
                have hptr : slotPtrAt ({ bumpSlotPtr s s.pos with pos := s.pos + 1 } :
                    LoopState) s.pos - 1 = slotPtrAt s s.pos := by
                  rw [slotPtrAt_posUpdate, bumpSlotPtr_ptrAt_self]
                  omega
                rw [hptr]
                exact hget
              · rw [hs1C]
                exact hov
              · rw [hs1C]
                exact lt_of_not_le hfr
        · rw [if_neg hov] at h
          have hih := ih _ _ h
          refine ⟨fun _ => hih.1 ?_, hih.2⟩
          rw [addFood_totC, hs1C]
          show s.totC + r.calories ≤ goal + 50
          linarith [not_lt.mp hov]
      | none =>
        rw [hget] at h
        simp only at h
        have hih := ih _ _ h
        exact ⟨fun hle => hih.1 (by rw [posUpdate_totC]; exact hle), hih.2⟩
    · rw [if_neg hcond] at h
      cases h
      exact ⟨fun hle => hle, fun hlt => absurd hlt hcond⟩

/-- C1 amended witness: a loop that starts inside the band returns at once
with its total unchanged, satisfying both conjuncts. -/
theorem topUp_band_witness :
    topUp [] [] [] 0 1 stBandW = some stBandW ∧
    ((stBandW.totC ≤ 0 + 50 → stBandW.totC ≤ 0 + 50) ∧
      (stBandW.totC < 0 - 50 →
        ∃ r, (slotPoolAt [] [] [] (stBandW.pos - 1))[slotPtrAt stBandW (stBandW.pos - 1) - 1]?
            = some r ∧
          (0 : ℚ) + 50 < stBandW.totC + r.calories ∧
          (0 - stBandW.totC) / r.calories < 2/5)) := by
  have hrun : topUp [] [] [] 0 1 stBandW = some stBandW := by
    rw [show (1 : ℕ) = 0 + 1 from rfl]
    simp only [topUp, stBandW]
    norm_num
  exact ⟨hrun, topUp_band [] [] [] 0 1 _ _ hrun⟩

/-- If every slot pointer is at or past the end of its pool while the
running total is still below the lower edge of the band, the top-up loop
never terminates: every fuel bound is exhausted. -/
theorem topUp_all_exhausted_none (pB pL pD : List Recipe) (goal : ℚ) :
    ∀ fuel s, pB.length ≤ s.ptrB → pL.length ≤ s.ptrL → pD.length ≤ s.ptrD →
      s.totC < goal - 50 → topUp pB pL pD goal fuel s = none := by
  intro fuel
  induction fuel with
  | zero => intro s _ _ _ _; rfl
  | succ n ih =>
    intro s hB hL hD ht
    rw [show topUp pB pL pD goal (n + 1) s =
      (if s.totC < goal - 50 then
        match (slotPoolAt pB pL pD s.pos)[slotPtrAt s s.pos]? with
        | some r =>
          let s1 := { bumpSlotPtr s s.pos with pos := s.pos + 1 }
          if goal + 50 < s.totC + r.calories then
            if 2/5 ≤ (goal - s.totC) / r.calories then
              some (addFood s1 (fracPortion r ((goal - s.totC) / r.calories)))
            else some s1
          else topUp pB pL pD goal n (addFood s1 (fullPortion r))
        | none => topUp pB pL pD goal n { s with pos := s.pos + 1 }
      else some s) from rfl]
    rw [if_pos ht]
    have hnone : (slotPoolAt pB pL pD s.pos)[slotPtrAt s s.pos]? = none := by
      apply List.getElem?_eq_none
      have h3 : s.pos % 3 = 0 ∨ s.pos % 3 = 1 ∨ s.pos % 3 = 2 := by omega
      rcases h3 with h | h | h <;> simp only [slotPoolAt, slotPtrAt, h] <;> norm_num <;>
        assumption
    rw [hnone]
    exact ih { s with pos := s.pos + 1 } hB hL hD ht

theorem macros_maint_eval :
    calculate_macros (calculate_calorie_needs 70 170 30 "male" "moderately_active"
      "maintain weight") "maintain weight" = ⟨156, 281, 83⟩ := by
  norm_num [calculate_calorie_needs, calculate_macros, activityMultiplier, goalAdjustment,
    pyRound, Int.fract,
    show lowerS "male" = "male" from by decide,
    show lowerS "moderately_active" = "moderately_active" from by decide,
    show lowerS "maintain weight" = "maintain weight" from by decide,
    show trimS "maintain weight" = "maintain weight" from by decide,
    show substrB "weight loss" "maintain weight" = false from by decide,
    show substrB "weight gain" "maintain weight" = false from by decide,
    show substrB "maintain weight" "maintain weight" = true from by decide,
    show substrB "muscle gain" "maintain weight" = false from by decide,
    show (("moderately_active" : String) = "sedentary") = False from
      eq_false (by decide : ¬ ("moderately_active" : String) = "sedentary"),
    show (("moderately_active" : String) = "lightly_active") = False from
      eq_false (by decide : ¬ ("moderately_active" : String) = "lightly_active")]

theorem topUpTiny_step1 (n : ℕ) :
    topUp [rcpTinyB] [rcpTinyL] [rcpTinyD] 2495 (n + 1) stT0 =
      topUp [rcpTinyB] [rcpTinyL] [rcpTinyD] 2495 n stT1 := by
  simp only [topUp]
  norm_num [stT0, stT1, slotPoolAt, slotPtrAt, bumpSlotPtr, addFood, fullPortion,
    lowestMealIdx, minIdxAux, mealCaloriesSum, appendFoodAt, rcpTinyB, rcpTinyL, rcpTinyD,
    foodP]

theorem topUpTiny_step2 (n : ℕ) :
    topUp [rcpTinyB] [rcpTinyL] [rcpTinyD] 2495 (n + 1) stT1 =
      topUp [rcpTinyB] [rcpTinyL] [rcpTinyD] 2495 n stT2 := by
  simp only [topUp]
  norm_num [stT1, stT2, slotPoolAt, slotPtrAt, bumpSlotPtr, addFood, fullPortion,
    lowestMealIdx, minIdxAux, mealCaloriesSum, appendFoodAt, rcpTinyB, rcpTinyL, rcpTinyD,
    foodP]

theorem topUpTiny_step3 (n : ℕ) :
    topUp [rcpTinyB] [rcpTinyL] [rcpTinyD] 2495 (n + 1) stT2 =
      topUp [rcpTinyB] [rcpTinyL] [rcpTinyD] 2495 n stT3 := by
  simp only [topUp]
  norm_num [stT2, stT3, slotPoolAt, slotPtrAt, bumpSlotPtr, addFood, fullPortion,
    lowestMealIdx, minIdxAux, mealCaloriesSum, appendFoodAt, rcpTinyB, rcpTinyL, rcpTinyD,
    foodP]

theorem topUpTiny_none : ∀ fuel : ℕ,
    topUp [rcpTinyB] [rcpTinyL] [rcpTinyD] 2495 fuel stT0 = none := by
  intro fuel
  rcases fuel with _ | n
  · rfl
  rw [topUpTiny_step1]
  rcases n with _ | n
  · rfl
  rw [topUpTiny_step2]
  rcases n with _ | n
  · rfl
  rw [topUpTiny_step3]
  exact topUp_all_exhausted_none _ _ _ _ n stT3 (by norm_num [rcpTinyB, stT3])
    (by norm_num [rcpTinyL, stT3]) (by norm_num [rcpTinyD, stT3]) (by norm_num [stT3])

/-- C2: the claim fails on the code: with a catalog whose three slot pools
are exhausted while the running day total is still below calorie_goal - 50,
the top-up loop keeps cycling through the continue branch without advancing
any pointer or total, so generate_meal_plan_with_cosine_similarity never
returns: in the fuel-indexed embedding it returns none for every fuel
bound.  The spec says every generate call runs to completion, so this is a
bug of the code (the loop should also stop when all pools are exhausted). -/
theorem generate_nonterminating_tiny (fuel : ℕ) :
    generate_meal_plan_with_cosine_similarity dsTiny userMaint dsTiny 1 3 fuel = none := by
  have htop := topUpTiny_none fuel
  simp only [generate_meal_plan_with_cosine_similarity, userMaint]
  rw [macros_maint_eval]
  norm_num [filter_recipes_by_allergies_and_cuisines, dsTiny, rcpTinyB, rcpTinyL, rcpTinyD,
    rankSlot, sortR, insertR, List.range_succ, collectDays, assembleDay, baseMealFood,
    List.take, List.cons_ne_nil,
    show (("lunch" : String) = "breakfast") = False from eq_false (by decide),
    show (("dinner" : String) = "breakfast") = False from eq_false (by decide),
    show (("breakfast" : String) = "lunch") = False from eq_false (by decide),
    show (("dinner" : String) = "lunch") = False from eq_false (by decide),
    show (("breakfast" : String) = "dinner") = False from eq_false (by decide),
    show (("lunch" : String) = "dinner") = False from eq_false (by decide)]
  norm_num [rcpTinyB, rcpTinyL, rcpTinyD, stT0, foodP] at htop
  rw [htop]
  rfl

/-- On the band dataset the first top-up iteration takes the overshoot
branch with fraction 195/1300 = 0.15 below 0.4, breaking the loop with the
totals unchanged and only the breakfast pointer advanced. -/
theorem topUpBand_run :
    topUp [rcpBandB] [rcpBandL] [rcpBandD] 2495 1 stB0 = some stB1 := by
  rw [show (1 : ℕ) = 0 + 1 from rfl]
  simp only [topUp]
  norm_num [stB0, stB1, slotPoolAt, slotPtrAt, bumpSlotPtr, rcpBandB, rcpBandL, rcpBandD]

/-- Full evaluation of the assembler on the band dataset: the loop breaks on
the low-fraction branch and the returned day keeps its total at 2300. -/
theorem generate_band_eval :
    generate_meal_plan_with_cosine_similarity dsBand userMaint dsBand 1 3 1
      = some (.ok planBand) := by
  simp only [generate_meal_plan_with_cosine_similarity, userMaint]
  rw [macros_maint_eval]
  have htop := topUpBand_run
  norm_num [rcpBandB, rcpBandL, rcpBandD, stB0, stB1] at htop
  norm_num [filter_recipes_by_allergies_and_cuisines, dsBand, rcpBandB, rcpBandL, rcpBandD,
    rankSlot, sortR, insertR, List.range_succ, collectDays, assembleDay, baseMealFood,
    List.take, List.cons_ne_nil,
    show (("lunch" : String) = "breakfast") = False from eq_false (by decide),
    show (("dinner" : String) = "breakfast") = False from eq_false (by decide),
    show (("breakfast" : String) = "lunch") = False from eq_false (by decide),
    show (("dinner" : String) = "lunch") = False from eq_false (by decide),
    show (("breakfast" : String) = "dinner") = False from eq_false (by decide),
    show (("lunch" : String) = "dinner") = False from eq_false (by decide)]
  rw [htop]
  have h2300 : pyRound1 (2300 : ℚ) = 2300 := by norm_num [pyRound1, pyRound, Int.fract]
  have h30 : pyRound1 (30 : ℚ) = 30 := by norm_num [pyRound1, pyRound, Int.fract]
  simp [planBand, dayBand, h2300, h30]

/-- C1 counterexample: on a catalog whose breakfast pool holds one 1300
calorie recipe and whose other slots hold 500 calorie recipes, the default
maintenance profile has calorie_goal 2495, the base day totals 2300, and
the single top-up iteration takes the overshoot branch with fraction
0.15 below 0.4, so the loop terminates normally (it returns, not by pool
exhaustion) with total_calories 2300 strictly below calorie_goal - 50: the
claimed band fails. -/
theorem generate_band_counterexample :
    generate_meal_plan_with_cosine_similarity dsBand userMaint dsBand 1 3 1
        = some (.ok planBand) ∧
    planBand.days.map (fun d => d.total_calories) = [2300] ∧
    mealCalorieGoal userMaint = 2495 ∧
    ¬ ((2495 : ℚ) - 50 ≤ 2300 ∧ (2300 : ℚ) ≤ 2495 + 50) := by
  refine ⟨generate_band_eval, by simp [planBand, dayBand], ?_, by norm_num⟩
  simp only [mealCalorieGoal, userMaint]
  rw [macros_maint_eval]
  norm_num

/-- C3 witness: the band run returns a plan and every day of it satisfies
the recomputed-totals property. -/
theorem generate_plan_day_totals_witness :
    generate_meal_plan_with_cosine_similarity dsBand userMaint dsBand 1 3 1
        = some (.ok planBand) ∧
    ∀ d ∈ planBand.days,
      |d.total_calories - mealsSum (fun f => f.calories) d.meals| ≤ 1/10 ∧
      |d.total_protein - mealsSum (fun f => f.protein) d.meals| ≤ 1/10 ∧
      |d.total_carbs - mealsSum (fun f => f.carbs) d.meals| ≤ 1/10 ∧
      |d.total_fat - mealsSum (fun f => f.fat) d.meals| ≤ 1/10 :=
  ⟨generate_band_eval, generate_plan_day_totals _ _ _ _ _ _ _ generate_band_eval⟩

/-- C8: whenever the filtered catalog is empty or the candidate pool of a
meal slot is empty, the assembler returns a result carrying a descriptive
user-facing error string (it runs to completion: the result is some, and no
exception is modelled because every embedded function is total). -/
theorem generate_empty_pool_error (dataset : List Recipe) (user : UserData)
    (recipes_df : List Recipe) (days meals_per_day fuel : ℕ)
    (h : filter_recipes_by_allergies_and_cuisines dataset user.allergies
          user.preferred_cuisines = [] ∨
        (filter_recipes_by_allergies_and_cuisines dataset user.allergies
          user.preferred_cuisines).filter (fun r => r.meal_type = "breakfast") = [] ∨
        (filter_recipes_by_allergies_and_cuisines dataset user.allergies
          user.preferred_cuisines).filter (fun r => r.meal_type = "lunch") = [] ∨
        (filter_recipes_by_allergies_and_cuisines dataset user.allergies
          user.preferred_cuisines).filter (fun r => r.meal_type = "dinner") = []) :
    ∃ msg, generate_meal_plan_with_cosine_similarity dataset user recipes_df days
        meals_per_day fuel = some (.error msg) := by
  simp only [generate_meal_plan_with_cosine_similarity]
  by_cases h1 : filter_recipes_by_allergies_and_cuisines dataset user.allergies
      user.preferred_cuisines = []
  · rw [if_pos h1]
    exact ⟨_, rfl⟩
  · rw [if_neg h1]
    by_cases h2 : (filter_recipes_by_allergies_and_cuisines dataset user.allergies
        user.preferred_cuisines).filter (fun r => r.meal_type = "breakfast") = []
    · rw [if_pos h2]
      exact ⟨_, rfl⟩
    · rw [if_neg h2]
      by_cases h3 : (filter_recipes_by_allergies_and_cuisines dataset user.allergies
          user.preferred_cuisines).filter (fun r => r.meal_type = "lunch") = []
      · rw [if_pos h3]
        exact ⟨_, rfl⟩
      · rw [if_neg h3]
        have h4 : (filter_recipes_by_allergies_and_cuisines dataset user.allergies
            user.preferred_cuisines).filter (fun r => r.meal_type = "dinner") = [] := by
          rcases h with h | h | h | h
          · exact absurd h h1
          · exact absurd h h2
          · exact absurd h h3
          · exact h
        rw [if_pos h4]
        exact ⟨_, rfl⟩

/-- C8 witness: the empty catalog filters to the empty set and the
assembler reports the no-recipes error value. -/
theorem generate_empty_pool_error_witness :
    filter_recipes_by_allergies_and_cuisines ([] : List Recipe) userMaint.allergies
        userMaint.preferred_cuisines = [] ∧
    ∃ msg, generate_meal_plan_with_cosine_similarity [] userMaint [] 1 3 1
        = some (.error msg) := by
  have hl : filter_recipes_by_allergies_and_cuisines ([] : List Recipe) userMaint.allergies
      userMaint.preferred_cuisines = [] := by
    simp [filter_recipes_by_allergies_and_cuisines, userMaint]
  exact ⟨hl, generate_empty_pool_error [] userMaint [] 1 3 1 (Or.inl hl)⟩

theorem normSqV_nonneg (v : Vec4) : 0 ≤ normSqV v := by
  unfold normSqV dotV
  nlinarith [mul_self_nonneg v.cal, mul_self_nonneg v.fat, mul_self_nonneg v.carbs,
    mul_self_nonneg v.protein]

theorem dotV_comm (u v : Vec4) : dotV u v = dotV v u := by
  unfold dotV; ring

theorem dotV_eq_zero_of_normSq_zero (u v : Vec4) (h : normSqV v = 0) : dotV u v = 0 := by
  unfold normSqV dotV at h
  have h1 : v.cal = 0 := by
    nlinarith [mul_self_nonneg v.cal, mul_self_nonneg v.fat,
      mul_self_nonneg v.carbs, mul_self_nonneg v.protein]
  have h2 : v.fat = 0 := by
    nlinarith [mul_self_nonneg v.cal, mul_self_nonneg v.fat,
      mul_self_nonneg v.carbs, mul_self_nonneg v.protein]
  have h3 : v.carbs = 0 := by
    nlinarith [mul_self_nonneg v.cal, mul_self_nonneg v.fat,
      mul_self_nonneg v.carbs, mul_self_nonneg v.protein]
  have h4 : v.protein = 0 := by
    nlinarith [mul_self_nonneg v.cal, mul_self_nonneg v.fat,
      mul_self_nonneg v.carbs, mul_self_nonneg v.protein]
  unfold dotV
  rw [h1, h2, h3, h4]
  ring

/-- The decidable comparator simLE agrees with the real cosine similarity
order against a common left vector. -/
theorem simLE_iff (u v w : Vec4) :
    simLE (dotV u v) (normSqV v) (dotV u w) (normSqV w) = true ↔
      realSim u v ≤ realSim u w := by
  have hp : (0 : ℚ) ≤ normSqV v := normSqV_nonneg v
  have hq : (0 : ℚ) ≤ normSqV w := normSqV_nonneg w
  have hnu : (0 : ℚ) ≤ normSqV u := normSqV_nonneg u
  have hpa : normSqV v = 0 → dotV u v = 0 := fun h => dotV_eq_zero_of_normSq_zero u v h
  have hqb : normSqV w = 0 → dotV u w = 0 := fun h => dotV_eq_zero_of_normSq_zero u w h
  have hua : normSqV u = 0 → dotV u v = 0 := fun h => by
    rw [dotV_comm]; exact dotV_eq_zero_of_normSq_zero v u h
  have hub : normSqV u = 0 → dotV u w = 0 := fun h => by
    rw [dotV_comm]; exact dotV_eq_zero_of_normSq_zero w u h
  set a := dotV u v with ha_def
  set p := normSqV v with hp_def
  set b := dotV u w with hb_def
  set q := normSqV w with hq_def
  unfold realSim
  rw [← ha_def, ← hp_def, ← hb_def, ← hq_def]
  set c : ℝ := Real.sqrt ((normSqV u : ℚ) : ℝ) with hc_def
  have hc0 : 0 ≤ c := Real.sqrt_nonneg _
  set A : ℝ := ((a : ℚ) : ℝ) / (c * Real.sqrt ((p : ℚ) : ℝ)) with hA_def
  set B : ℝ := ((b : ℚ) : ℝ) / (c * Real.sqrt ((q : ℚ) : ℝ)) with hB_def
  have hsqp : Real.sqrt ((p : ℚ) : ℝ) ^ 2 = ((p : ℚ) : ℝ) :=
    Real.sq_sqrt (by exact_mod_cast hp)
  have hsqq : Real.sqrt ((q : ℚ) : ℝ) ^ 2 = ((q : ℚ) : ℝ) :=
    Real.sq_sqrt (by exact_mod_cast hq)
  have hA2 : A ^ 2 = (((a ^ 2 / p : ℚ)) : ℝ) / c ^ 2 := by
    rw [hA_def, div_pow, mul_pow, hsqp]
    push_cast
    rw [div_mul_eq_div_div_swap]
  have hB2 : B ^ 2 = (((b ^ 2 / q : ℚ)) : ℝ) / c ^ 2 := by
    rw [hB_def, div_pow, mul_pow, hsqq]
    push_cast
    rw [div_mul_eq_div_div_swap]
  by_cases hu0 : normSqV u = 0
  · have ha0 : a = 0 := hua hu0
    have hb0 : b = 0 := hub hu0
    simp only [simLE, ha0, hb0, le_refl, if_pos]
    norm_num [hA_def, hB_def, ha0, hb0]
  · have hcpos : 0 < c := by
      rw [hc_def]
      apply Real.sqrt_pos.mpr
      exact_mod_cast lt_of_le_of_ne hnu (Ne.symm hu0)
    have hc2pos : (0 : ℝ) < c ^ 2 := by positivity
    rcases le_or_lt 0 a with ha | ha
    · rcases le_or_lt 0 b with hb | hb
      · -- both dots nonnegative: compare squares
        have hA0 : 0 ≤ A := by
          rw [hA_def]
          apply div_nonneg (by exact_mod_cast ha)
          exact mul_nonneg hc0 (Real.sqrt_nonneg _)
        have hB0 : 0 ≤ B := by
          rw [hB_def]
          apply div_nonneg (by exact_mod_cast hb)
          exact mul_nonneg hc0 (Real.sqrt_nonneg _)
        have hsq : A ≤ B ↔ A ^ 2 ≤ B ^ 2 := by
          constructor
          · intro h; exact pow_le_pow_left hA0 h 2
          · intro h; exact le_of_pow_le_pow_left (by norm_num) hB0 h
        simp only [simLE, if_pos ha, if_pos hb, decide_eq_true_eq]
        rw [hsq, hA2, hB2, div_le_div_iff_of_pos_right hc2pos]
        exact ⟨fun h => by exact_mod_cast h, fun h => by exact_mod_cast h⟩
      · -- second dot negative: the right similarity is negative, the left
        -- nonnegative, so the comparison is false on both sides
        have hq0 : q ≠ 0 := fun h0 => by rw [hqb h0] at hb; exact lt_irrefl 0 hb
        have hB0 : B < 0 := by
          rw [hB_def]
          apply div_neg_of_neg_of_pos (by exact_mod_cast hb)
          apply mul_pos hcpos
          apply Real.sqrt_pos.mpr
          exact_mod_cast lt_of_le_of_ne hq (Ne.symm hq0)
        have hA0 : 0 ≤ A := by
          rw [hA_def]
          apply div_nonneg (by exact_mod_cast ha)
          exact mul_nonneg hc0 (Real.sqrt_nonneg _)
        have hval : simLE a p b q = false := by
          unfold simLE
          rw [if_pos ha, if_neg (not_le.mpr hb)]
        rw [hval]
        constructor
        · intro h; exact (Bool.false_ne_true h).elim
        · intro h; exfalso; linarith
    · rcases le_or_lt 0 b with hb | hb
      · -- first dot negative, second nonnegative: always true
        have hp0 : p ≠ 0 := fun h0 => by rw [hpa h0] at ha; exact lt_irrefl 0 ha
        have hA0 : A < 0 := by
          rw [hA_def]
          apply div_neg_of_neg_of_pos (by exact_mod_cast ha)
          apply mul_pos hcpos
          apply Real.sqrt_pos.mpr
          exact_mod_cast lt_of_le_of_ne hp (Ne.symm hp0)
        have hB0 : 0 ≤ B := by
          rw [hB_def]
          apply div_nonneg (by exact_mod_cast hb)
          exact mul_nonneg hc0 (Real.sqrt_nonneg _)
        have hval : simLE a p b q = true := by
          unfold simLE
          rw [if_neg (not_le.mpr ha), if_pos hb]
        rw [hval]
        exact ⟨fun _ => by linarith, fun _ => rfl⟩
      · -- both dots negative: compare squares the other way round
        have hp0 : p ≠ 0 := fun h0 => by rw [hpa h0] at ha; exact lt_irrefl 0 ha
        have hq0 : q ≠ 0 := fun h0 => by rw [hqb h0] at hb; exact lt_irrefl 0 hb
        have hA0 : A < 0 := by
          rw [hA_def]
          apply div_neg_of_neg_of_pos (by exact_mod_cast ha)
          apply mul_pos hcpos
          apply Real.sqrt_pos.mpr
          exact_mod_cast lt_of_le_of_ne hp (Ne.symm hp0)
        have hB0 : B < 0 := by
          rw [hB_def]
          apply div_neg_of_neg_of_pos (by exact_mod_cast hb)
          apply mul_pos hcpos
          apply Real.sqrt_pos.mpr
          exact_mod_cast lt_of_le_of_ne hq (Ne.symm hq0)
        have hsq : A ≤ B ↔ B ^ 2 ≤ A ^ 2 := by
          constructor
          · intro h
            have h1 : -B ≤ -A := neg_le_neg h
            have := pow_le_pow_left (by linarith : (0:ℝ) ≤ -B) h1 2
            simpa using this
          · intro h
            have h1 : (-B) ^ 2 ≤ (-A) ^ 2 := by simpa using h
            have := le_of_pow_le_pow_left (by norm_num) (by linarith : (0:ℝ) ≤ -A) h1
            linarith
        simp only [simLE, if_neg (not_le.mpr ha), if_neg (not_le.mpr hb),
          decide_eq_true_eq]
        rw [hsq, hA2, hB2, div_le_div_iff_of_pos_right hc2pos]
        exact ⟨fun h => by exact_mod_cast h, fun h => by exact_mod_cast h⟩

/-- The ranking comparator places v before w exactly when the real cosine
similarity of v to the target is at least that of w. -/
theorem simGEb_iff (u v w : Vec4) : simGEb u v w = true ↔ realSim u w ≤ realSim u v :=
  simLE_iff u w v

/-- C6: on any nonempty slot pool the ranking step returns rows whose
cosine-similarity scores against the scaled user target are non-increasing,
and at most top_k rows. -/
theorem rankSlot_sorted_topk (goalVec : Vec4) (pool : List Recipe) (top_k : ℕ)
    (hne : pool ≠ []) :
    ((rankSlot goalVec pool top_k).map (slotKey goalVec pool)).Sorted
        (fun x y => y ≤ x) ∧
    (rankSlot goalVec pool top_k).length ≤ top_k := by
  constructor
  · have hsorted := sortR_sorted_key
      (fun x y => simGEb (scaleVec (poolLo pool) (poolHi pool) goalVec)
        (slotScaled pool x) (slotScaled pool y))
      (fun r => realSim (scaleVec (poolLo pool) (poolHi pool) goalVec) (slotScaled pool r))
      (fun x y => simGEb_iff _ _ _) pool
    have htake : ((sortR (fun x y => simGEb (scaleVec (poolLo pool) (poolHi pool) goalVec)
        (slotScaled pool x) (slotScaled pool y)) pool).take top_k).Sorted
        (fun a b => realSim (scaleVec (poolLo pool) (poolHi pool) goalVec) (slotScaled pool b)
          ≤ realSim (scaleVec (poolLo pool) (poolHi pool) goalVec) (slotScaled pool a)) :=
      List.Pairwise.sublist (List.take_sublist _ _) hsorted
    exact List.pairwise_map.mpr htake
  · have hlen : ((sortR (fun x y => simGEb (scaleVec (poolLo pool) (poolHi pool) goalVec)
        (slotScaled pool x) (slotScaled pool y)) pool).take top_k).length ≤ top_k := by
      rw [List.length_take]
      exact min_le_left _ _
    exact hlen

/-- C6 witness on a one-recipe breakfast pool with top_k 1. -/
theorem rankSlot_sorted_topk_witness :
    [rcpTinyB] ≠ ([] : List Recipe) ∧
    (((rankSlot ⟨1, 1, 1, 1⟩ [rcpTinyB] 1).map (slotKey ⟨1, 1, 1, 1⟩ [rcpTinyB])).Sorted
        (fun x y => y ≤ x) ∧
      (rankSlot ⟨1, 1, 1, 1⟩ [rcpTinyB] 1).length ≤ 1) :=
  ⟨by simp, rankSlot_sorted_topk ⟨1, 1, 1, 1⟩ [rcpTinyB] 1 (by simp)⟩

/-- C9: the scorer gives every recipe with missing or non-positive calories
the score -1 and such a recipe never appears in the returned list; the
returned list carries only strictly positive scores (each the score of its
row) and has at most top_n entries. -/
theorem recommend_foods_by_goal_spec (user_goal : String) (rows : List RecipeRow) (n : ℕ) :
    (recommend_foods_by_goal user_goal rows n).length ≤ n ∧
    (∀ p ∈ recommend_foods_by_goal user_goal rows n,
      0 < p.2 ∧ p.2 = recipeGoalScore (lowerS user_goal) p.1) ∧
    (∀ r ∈ rows, (r.calories = none ∨ ∃ c, r.calories = some c ∧ c ≤ 0) →
      recipeGoalScore (lowerS user_goal) r = -1 ∧
        r ∉ (recommend_foods_by_goal user_goal rows n).map Prod.fst) := by
  have hscoreval : ∀ r : RecipeRow,
      (r.calories = none ∨ ∃ c, r.calories = some c ∧ c ≤ 0) →
      recipeGoalScore (lowerS user_goal) r = -1 := by
    intro r hbad
    rcases hbad with hnone | ⟨c, hc, hle⟩
    · unfold recipeGoalScore
      rw [hnone]
    · unfold recipeGoalScore
      rw [hc]
      simp only [if_pos hle]
  by_cases h0 : rows = []
  · subst h0
    refine ⟨by simp [recommend_foods_by_goal], by simp [recommend_foods_by_goal], ?_⟩
    intro r hr
    cases hr
  · have hsub : ∀ p ∈ recommend_foods_by_goal user_goal rows n,
        p ∈ rows.map (fun r => (r, recipeGoalScore (lowerS user_goal) r)) := by
      intro p hp
      simp only [recommend_foods_by_goal, if_neg h0] at hp
      have h1 := List.mem_of_mem_filter hp
      have h2 := List.take_subset _ _ h1
      exact (mem_sortR _ _ _).mp h2
    have hposmem : ∀ p ∈ recommend_foods_by_goal user_goal rows n, 0 < p.2 := by
      intro p hp
      simp only [recommend_foods_by_goal, if_neg h0] at hp
      have := (List.mem_filter.mp hp).2
      exact of_decide_eq_true this
    refine ⟨?_, ?_, ?_⟩
    · simp only [recommend_foods_by_goal, if_neg h0]
      calc (((sortR (fun x y => decide (y.2 ≤ x.2))
            (rows.map (fun r => (r, recipeGoalScore (lowerS user_goal) r)))).take n).filter
            (fun p => decide (0 < p.2))).length
          ≤ ((sortR (fun x y => decide (y.2 ≤ x.2))
            (rows.map (fun r => (r, recipeGoalScore (lowerS user_goal) r)))).take n).length :=
            List.length_filter_le _ _
        _ ≤ n := by
            rw [List.length_take]
            exact min_le_left _ _
    · intro p hp
      refine ⟨hposmem p hp, ?_⟩
      obtain ⟨r, _, hpr⟩ := List.mem_map.mp (hsub p hp)
      rw [← hpr]
    · intro r hr hbad
      refine ⟨hscoreval r hbad, ?_⟩
      intro hmem
      obtain ⟨p, hp, hpr⟩ := List.mem_map.mp hmem
      obtain ⟨r', _, hpr'⟩ := List.mem_map.mp (hsub p hp)
      have hscore : p.2 = recipeGoalScore (lowerS user_goal) p.1 := by rw [← hpr']
      have hpos := hposmem p hp
      rw [hscore, hpr, hscoreval r hbad] at hpos
      exact absurd hpos (by norm_num)

/-- C9 witness: with calories 0 and 200 under the weight loss goal, the
zero-calorie recipe scores -1 and is excluded from the returned list. -/
theorem recommend_foods_by_goal_spec_witness :
    rowZero ∈ [rowGood, rowZero] ∧
    (rowZero.calories = none ∨ ∃ c, rowZero.calories = some c ∧ c ≤ 0) ∧
    recipeGoalScore (lowerS "weight loss") rowZero = -1 ∧
    rowZero ∉ (recommend_foods_by_goal "weight loss" [rowGood, rowZero] 10).map Prod.fst ∧
    (recommend_foods_by_goal "weight loss" [rowGood, rowZero] 10).length ≤ 10 := by
  have h := recommend_foods_by_goal_spec "weight loss" [rowGood, rowZero] 10
  have hbadcal : rowZero.calories = none ∨ ∃ c, rowZero.calories = some c ∧ c ≤ 0 :=
    Or.inr ⟨0, rfl, le_refl 0⟩
  have hbad := h.2.2 rowZero (by simp) hbadcal
  exact ⟨by simp, hbadcal, hbad.1, hbad.2, h.1⟩

theorem mem_selectStrength (cat : List ExDict) (k : ℕ) (d : ExDict)
    (h : d ∈ selectStrength cat k) : d ∈ cat := by
  unfold selectStrength at h
  by_cases h0 : cat = []
  · rw [if_pos h0] at h
    cases h
  · rw [if_neg h0] at h
    simp only at h
    have hbase : ∀ x ∈ (cat.filter (fun d => muscleBucket d = 0)).take
          (max 1 (⌊(k : ℚ) * 0.4⌋).toNat) ++
        (cat.filter (fun d => muscleBucket d = 2)).take (max 1 (⌊(k : ℚ) * 0.4⌋).toNat) ++
        (cat.filter (fun d => muscleBucket d = 1)).take
          (max 1 (k - max 1 (⌊(k : ℚ) * 0.4⌋).toNat - max 1 (⌊(k : ℚ) * 0.4⌋).toNat)),
        x ∈ cat := by
      intro x hx
      rcases List.mem_append.mp hx with hx1 | hx1
      · rcases List.mem_append.mp hx1 with hx2 | hx2
        · exact List.mem_of_mem_filter (List.take_subset _ _ hx2)
        · exact List.mem_of_mem_filter (List.take_subset _ _ hx2)
      · exact List.mem_of_mem_filter (List.take_subset _ _ hx1)
    split_ifs at h with h1
    · rcases List.mem_append.mp h with h2 | h2
      · exact hbase d h2
      · exact List.mem_of_mem_filter (List.take_subset _ _ h2)
    · exact hbase d h

theorem mem_fallbackFill (df : List ExRow) (cat : String) (sets quota : ℕ)
    (sel : List ExDict) (d : ExDict) (h : d ∈ fallbackFill df cat sets quota sel) :
    d ∈ sel ∨ d.predicted_rating = 3 := by
  unfold fallbackFill at h
  split_ifs at h with h1 h2
  · exact Or.inl h
  · rcases List.mem_append.mp h with h3 | h3
    · exact Or.inl h3
    · obtain ⟨e, _, hde⟩ := List.mem_map.mp h3
      right
      rw [← hde]
  · exact Or.inl h

theorem fallbackFill_keeps (df : List ExRow) (cat : String) (sets quota : ℕ)
    (sel : List ExDict) (d : ExDict) (h : d ∈ sel) :
    d ∈ fallbackFill df cat sets quota sel := by
  unfold fallbackFill
  split_ifs with h1 h2
  · exact h
  · exact List.mem_append.mpr (Or.inl h)
  · exact h

theorem mem_catFilter (predicted : List (String × ExDict)) (cat : String) (d : ExDict)
    (h : d ∈ catFilter predicted cat) : ∃ cd ∈ predicted, d = cd.2 := by
  unfold catFilter at h
  obtain ⟨cd, hcd, hf⟩ := List.mem_filterMap.mp h
  by_cases hc : cd.1 = cat
  · rw [if_pos hc] at hf
    simp only [Option.some.injEq] at hf
    exact ⟨cd, hcd, hf.symm⟩
  · rw [if_neg hc] at hf
    cases hf

theorem exPredicted_pr (df : List ExRow) (sets : ℕ) (preds : List (String × ℚ))
    (hpr : ∀ tp ∈ preds, tp.2 = (3 : ℚ)) :
    ∀ cd ∈ exPredicted df sets preds, cd.2.predicted_rating = 3 := by
  intro cd hcd
  unfold exPredicted at hcd
  obtain ⟨tp, htp, hf⟩ := List.mem_filterMap.mp hcd
  cases hfind : df.find? (fun e => e.title = tp.1) with
  | none =>
    rw [hfind] at hf
    cases hf
  | some e =>
    rw [hfind] at hf
    simp only [Option.some.injEq] at hf
    rw [← hf]
    exact hpr tp htp

/-- Every dict selected by the category loop carries a predicted rating
equal to 3 when all predictions are 3. -/
theorem exSelections_pr (df : List ExRow) (sets n : ℕ) (w : ℚ × ℚ × ℚ)
    (preds : List (String × ℚ)) (hpr : ∀ tp ∈ preds, tp.2 = (3 : ℚ)) :
    ∀ d, (d ∈ (exSelections df sets n w preds).1 ∨
        d ∈ (exSelections df sets n w preds).2.1 ∨
        d ∈ (exSelections df sets n w preds).2.2) → d.predicted_rating = 3 := by
  have hcatF : ∀ (c : String) (d : ExDict),
      d ∈ catFilter (exPredicted df sets preds) c → d.predicted_rating = 3 := by
    intro c d hd
    obtain ⟨cd, hcd, hdc⟩ := mem_catFilter _ _ _ hd
    rw [hdc]
    exact exPredicted_pr df sets preds hpr cd hcd
  have htake : ∀ (c : String) (k : ℕ) (d : ExDict),
      d ∈ (sortByPred (catFilter (exPredicted df sets preds) c)).take k →
        d.predicted_rating = 3 := by
    intro c k d hd
    have := List.take_subset _ _ hd
    exact hcatF c d ((mem_sortR _ _ _).mp this)
  intro d hd
  simp only [exSelections] at hd
  rcases hd with hd | hd | hd
  · rcases mem_fallbackFill _ _ _ _ _ _ hd with hsel | h3
    · by_cases hz : quotaFor n w.1 (w.1 + w.2.1 + w.2.2) = 0
      · rw [if_pos hz] at hsel
        cases hsel
      · rw [if_neg hz] at hsel
        exact htake _ _ _ hsel
    · exact h3
  · rcases mem_fallbackFill _ _ _ _ _ _ hd with hsel | h3
    · by_cases hz : quotaFor n w.2.1 (w.1 + w.2.1 + w.2.2) = 0
      · rw [if_pos hz] at hsel
        cases hsel
      · rw [if_neg hz] at hsel
        have := mem_selectStrength _ _ _ hsel
        exact hcatF _ _ ((mem_sortR _ _ _).mp this)
    · exact h3
  · rcases mem_fallbackFill _ _ _ _ _ _ hd with hsel | h3
    · by_cases hz : quotaFor n w.2.2 (w.1 + w.2.1 + w.2.2) = 0
      · rw [if_pos hz] at hsel
        cases hsel
      · rw [if_neg hz] at hsel
        exact htake _ _ _ hsel
    · exact h3

/-- C10: with a nonempty exercise catalog and an empty rating history,
recommend_exercises returns the category map (never the error value, and no
exception arises since the embedding is total), and every returned exercise
dict carries the default predicted rating of exactly 3.0. -/
theorem recommend_exercises_empty_ratings (u : UserData) (exercise_data : List ExRow)
    (knnPredict : List RatingRow → List ExRow → String → List (String × ℚ)) (n : ℕ)
    (hne : exercise_data ≠ []) :
    ∃ c s f, recommend_exercises u exercise_data [] knnPredict n = ExResult.ok c s f ∧
      ∀ d, (d ∈ c ∨ d ∈ s ∨ d ∈ f) → d.predicted_rating = 3 := by
  have hmapne : exercise_data.map (fun e => (e.title, (3 : ℚ))) ≠ [] := by
    simpa using hne
  have hpreds : ∀ tp ∈ exPredsFinal (exDfOf u exercise_data)
      (exercise_data.map (fun e => (e.title, (3 : ℚ)))), tp.2 = (3 : ℚ) := by
    intro tp htp
    unfold exPredsFinal at htp
    rw [if_neg hmapne] at htp
    obtain ⟨e, _, hte⟩ := List.mem_map.mp htp
    rw [← hte]
  refine ⟨_, _, _, ?_, exSelections_pr (exDfOf u exercise_data)
      ((activitySettings (lowerS u.activity_level)).2.2) n (exWeights u)
      (exPredsFinal (exDfOf u exercise_data)
        (exercise_data.map (fun e => (e.title, (3 : ℚ))))) hpreds⟩
  unfold recommend_exercises
  rw [if_neg hne, if_pos rfl]

/-- C10 witness: a one-exercise catalog is nonempty and the theorem applies
to it with the trivial KNN oracle. -/
theorem recommend_exercises_empty_ratings_witness :
    ([⟨"run", "Cardio", "Quadriceps", "None", "Beginner", 8, "d", "rd"⟩] : List ExRow) ≠ [] ∧
    ∃ c s f, recommend_exercises userMaint
        [⟨"run", "Cardio", "Quadriceps", "None", "Beginner", 8, "d", "rd"⟩] []
        (fun _ _ _ => []) 10 = ExResult.ok c s f ∧
      ∀ d, (d ∈ c ∨ d ∈ s ∨ d ∈ f) → d.predicted_rating = 3 :=
  ⟨by simp, recommend_exercises_empty_ratings userMaint
    [⟨"run", "Cardio", "Quadriceps", "None", "Beginner", 8, "d", "rd"⟩]
    (fun _ _ _ => []) 10 (by simp)⟩

